import Mathlib

/-!
# wasm-template: the request router of `main.go`

A shallow embedding of `main.go` (`init`, `handler`, `handleSwaggerSpec`,
`handleHelloWorld`) together with the parts of the Go standard library the
handlers call into (`strings`, `path`, `embed`, `io/fs`, `net/http`), followed
by the properties of the router.

Conventions of the embedding:

* Go strings that hold paths, header values and messages are Lean `String`s
  (well-formed UTF-8); byte slices (response bodies, embedded file contents)
  are `List UInt8`.
* The functions of the Go standard library follow their Go sources; the parts
  of `net/http` and `mime` that are left out (MIME type detection, the HTML of
  directory listings, conditional and range requests) are the fields of
  `http.Library`, over which every statement is universally quantified.
* Package-level variables of `main.go` live in `World`, which every handler
  receives and returns, so that writes to them would be visible.
* `World.log` is the output of the `wasilog` loggers and `World.calls` records
  the calls by which `handler` dispatched each request, in order.
-/

set_option autoImplicit false

namespace WasmTemplate

/-! ## Byte slices and `strings` -/

/-- A Go byte slice. -/
abbrev Bytes := List UInt8

/-- The conversion `[]byte(s)`: the UTF-8 encoding of a string. -/
def bytes (s : String) : Bytes :=
  s.data.foldr (fun c acc => String.utf8EncodeChar c ++ acc) []

/-- Go `strings.HasPrefix`. -/
def HasPrefix (s pre : String) : Bool :=
  pre.data.isPrefixOf s.data

/-- Go `strings.HasSuffix`. -/
def HasSuffix (s suf : String) : Bool :=
  suf.data.reverse.isPrefixOf s.data.reverse

/-- Go `strings.TrimPrefix`. -/
def TrimPrefix (s pre : String) : String :=
  if HasPrefix s pre then ⟨s.data.drop pre.data.length⟩ else s

/-- Go `strings.TrimSuffix`. -/
def TrimSuffix (s suf : String) : String :=
  if HasSuffix s suf then ⟨s.data.take (s.data.length - suf.data.length)⟩ else s

/-! ## Package `path` -/

namespace path

/-- Split a path at every slash; the result is never empty. -/
def splitSlash : List Char → List (List Char)
  | [] => [[]]
  | c :: cs =>
    if c = '/' then [] :: splitSlash cs
    else
      match splitSlash cs with
      | [] => [[c]]
      | e :: es => (c :: e) :: es

/-- Join path elements with single slashes. -/
def joinSlash : List (List Char) → List Char
  | [] => []
  | [e] => e
  | e :: es => e ++ '/' :: joinSlash es

/-- One step of `path.Clean`: `stack` holds the elements kept so far, innermost
first.  Empty and `.` elements are dropped, `..` removes the preceding real
element, is dropped at the root of a rooted path and is kept at the front of a
relative one. -/
def cleanStep (rooted : Bool) (stack : List (List Char)) (e : List Char) :
    List (List Char) :=
  if e = [] ∨ e = ['.'] then stack
  else if e = ['.', '.'] then
    match stack with
    | [] => if rooted then [] else [e]
    | top :: rest => if top = ['.', '.'] then e :: stack else rest
  else e :: stack

/-- Go `path.Clean`, computed element by element. -/
def Clean (p : String) : String :=
  if p = "" then "."
  else
    let rooted := p.data.head? = some '/'
    let kept := ((splitSlash p.data).foldl (cleanStep rooted) []).reverse
    if rooted then ⟨'/' :: joinSlash kept⟩
    else if kept = [] then "." else ⟨joinSlash kept⟩

/-- Go `path.Join` of two elements: the non-empty leading elements are joined
with a slash and the result is cleaned. -/
def Join (dir name : String) : String :=
  if dir = "" ∧ name = "" then ""
  else if dir = "" then Clean name
  else Clean (dir ++ "/" ++ name)

/-- Drop the trailing slashes of a path. -/
def stripTrailingSlashes (p : List Char) : List Char :=
  (p.reverse.dropWhile (fun c => c = '/')).reverse

/-- Go `path.Base`: the last element of a path. -/
def Base (p : String) : String :=
  if p = "" then "."
  else
    let last := (splitSlash (stripTrailingSlashes p.data)).getLast?.getD []
    if last = [] then "/" else ⟨last⟩

/-- Go `path.Split`, first component: everything up to and including the final slash. -/
def dirOf (p : String) : String :=
  ⟨(p.data.reverse.dropWhile (fun c => c ≠ '/')).reverse⟩

end path

/-! ## Package `io/fs` and `embed` -/

namespace fs

/-- A path element that `fs.ValidPath` accepts: not empty, not `.` and not `..`. -/
def validElement (e : List Char) : Bool :=
  e ≠ [] ∧ e ≠ ['.'] ∧ e ≠ ['.', '.']

/-- Go `fs.ValidPath`: `.` or a slash-separated sequence of elements none of
which is empty, `.` or `..`.  (Lean strings are always well-formed UTF-8.) -/
def ValidPath (name : String) : Bool :=
  name = "." || (path.splitSlash name.data).all validElement

/-- The errors that opening a file in an embedded file system can report. -/
inductive PathError where
  /-- The sentinel `fs.ErrNotExist`. -/
  | ErrNotExist
  /-- The sentinel `fs.ErrInvalid`. -/
  | ErrInvalid
  /-- The error of `embed.FS.ReadFile` on a directory. -/
  | isDirectory
  deriving DecidableEq, Repr

/-- The text of `err.Error()` for a failed operation on the path `name`. -/
def PathError.Error (name : String) : PathError → String
  | .ErrNotExist => "open " ++ name ++ ": file does not exist"
  | .ErrInvalid => "open " ++ name ++ ": invalid argument"
  | .isDirectory => "read " ++ name ++ ": is a directory"

end fs

namespace embed

/-- One regular file of an embedded tree: its slash-separated path and its bytes. -/
structure File where
  /-- The path of the file from the root of the embedded tree. -/
  name : String
  /-- The contents of the file. -/
  data : Bytes
  deriving DecidableEq, Repr

/-- Go `embed.FS`: a read-only tree given by its regular files.  A directory
exists exactly when some embedded file lies below it. -/
structure FS where
  /-- The regular files of the tree. -/
  files : List File
  deriving DecidableEq, Repr

/-- What a successful `Open` returns. -/
inductive Node where
  /-- A regular file with its name (last element) and contents. -/
  | file (name : String) (data : Bytes)
  /-- A directory. -/
  | dir (name : String)
  deriving DecidableEq, Repr

/-- Whether the node is a directory (`d.IsDir()`). -/
def Node.IsDir : Node → Bool
  | .file _ _ => false
  | .dir _ => true

/-- The method `embed.FS.lookup`: the entry called `name`, if any. -/
def FS.lookup (f : FS) (name : String) : Option Node :=
  if ¬ fs.ValidPath name then none
  else if name = "." then some (.dir ".")
  else
    match f.files.find? (fun x => x.name = name) with
    | some x => some (.file (path.Base name) x.data)
    | none =>
      if f.files.any (fun x => HasPrefix x.name (name ++ "/")) then
        some (.dir (path.Base name))
      else none

/-- The method `embed.FS.Open`. -/
def FS.Open (f : FS) (name : String) : Except fs.PathError Node :=
  match f.lookup name with
  | none => .error .ErrNotExist
  | some n => .ok n

/-- The method `embed.FS.ReadFile`. -/
def FS.ReadFile (f : FS) (name : String) : Except fs.PathError Bytes :=
  match f.Open name with
  | .error e => .error e
  | .ok (.dir _) => .error .isDirectory
  | .ok (.file _ data) => .ok data

end embed

namespace fs

/-- The result of Go `fs.Sub(fsys, dir)` on an embedded tree: `fsys` seen from `dir`. -/
structure subFS where
  /-- The underlying tree. -/
  fsys : embed.FS
  /-- The directory that acts as the root. -/
  dir : String
  deriving DecidableEq, Repr

/-- Go `fs.Sub`: fails only on an invalid directory name. -/
def Sub (fsys : embed.FS) (dir : String) : Except String subFS :=
  if ¬ ValidPath dir then .error ("sub " ++ dir ++ ": invalid argument")
  else .ok ⟨fsys, dir⟩

/-- The method `subFS.Open`. -/
def subFS.Open (f : subFS) (name : String) : Except PathError embed.Node :=
  if ¬ ValidPath name then .error .ErrInvalid
  else f.fsys.Open (path.Join f.dir name)

end fs

/-! ## Package `net/http` -/

namespace http

/-- Go `http.Header`, restricted to single-valued fields with canonical keys. -/
abbrev Header := List (String × String)

/-- The method `Header.Get`: the value of a field, `""` when absent. -/
def Header.Get (h : Header) (key : String) : String :=
  match h.find? (fun kv => kv.1 = key) with
  | some kv => kv.2
  | none => ""

/-- Whether the field is present (`_, ok := h[key]`). -/
def Header.Has (h : Header) (key : String) : Bool :=
  h.any (fun kv => kv.1 = key)

/-- The method `Header.Del`. -/
def Header.Del (h : Header) (key : String) : Header :=
  h.filter (fun kv => kv.1 ≠ key)

/-- The method `Header.Set`: replace the field. -/
def Header.Set (h : Header) (key value : String) : Header :=
  Header.Del h key ++ [(key, value)]

/-- Go `url.URL`, the fields the handlers read. -/
structure URL where
  /-- The decoded path. -/
  Path : String
  /-- The encoded path hint; empty when the default encoding of `Path` was received. -/
  RawPath : String
  /-- The encoded query, without the question mark. -/
  RawQuery : String
  deriving DecidableEq, Repr

/-- Go `http.Request`, the fields the handlers read. -/
structure Request where
  /-- The HTTP method. -/
  Method : String
  /-- The request header. -/
  Header : Header
  /-- The parsed request target. -/
  URL : URL
  deriving DecidableEq, Repr

/-- Go `http.ResponseWriter`, as a record of what has been sent through it. -/
structure ResponseWriter where
  /-- The header map returned by `w.Header()`. -/
  header : Header
  /-- The status code, once the header has been written. -/
  status : Option Nat
  /-- The header fields as they were when the header was written. -/
  sentHeader : Header
  /-- The body bytes accepted so far. -/
  body : Bytes
  /-- The error with which the transport rejects every write, if it is broken. -/
  writeErr : Option String
  deriving DecidableEq, Repr

/-- The writer handed to a handler for a new request over a healthy transport. -/
def newResponseWriter : ResponseWriter :=
  { header := [], status := none, sentHeader := [], body := [], writeErr := none }

/-- The method `ResponseWriter.WriteHeader`: the first call fixes status and header. -/
def ResponseWriter.WriteHeader (w : ResponseWriter) (code : Nat) : ResponseWriter :=
  match w.status with
  | some _ => w
  | none => { w with status := some code, sentHeader := w.header }

/-- The method `ResponseWriter.Write`: writes the header with status 200 if it
has not been written, then appends the data unless the transport fails. -/
def ResponseWriter.Write (w : ResponseWriter) (data : Bytes) :
    ResponseWriter × Option String :=
  let w := w.WriteHeader 200
  match w.writeErr with
  | some e => (w, some e)
  | none => ({ w with body := w.body ++ data }, none)

/-- Go `fmt.Fprintln(w, s)`: write `s` and a newline, ignoring the result. -/
def Fprintln (w : ResponseWriter) (s : String) : ResponseWriter :=
  (w.Write (bytes (s ++ "\n"))).1

/-- Go `http.StatusText`, for the codes this program emits. -/
def StatusText (code : Nat) : String :=
  if code = 200 then "OK"
  else if code = 301 then "Moved Permanently"
  else if code = 404 then "Not Found"
  else if code = 500 then "Internal Server Error"
  else ""

/-- Go `http.Error`: a plain-text error reply; the message is followed by a newline. -/
def Error (w : ResponseWriter) (error : String) (code : Nat) : ResponseWriter :=
  let w := { w with header := Header.Del w.header "Content-Length" }
  let w := { w with header := Header.Set w.header "Content-Type" "text/plain; charset=utf-8" }
  let w := { w with header := Header.Set w.header "X-Content-Type-Options" "nosniff" }
  let w := w.WriteHeader code
  Fprintln w error

/-- Go `http.NotFound`. -/
def NotFound (w : ResponseWriter) (_r : Request) : ResponseWriter :=
  Error w "404 page not found" 404

/-- A lower-case hexadecimal digit. -/
def hexDigit (n : Nat) : Char :=
  if n < 10 then Char.ofNat (48 + n) else Char.ofNat (87 + n)

/-- Go `hexEscapeNonASCII`: percent-encode every byte outside ASCII. -/
def hexEscapeNonASCII (s : String) : String :=
  ⟨s.data.foldr (fun c acc =>
    if c.toNat < 128 then c :: acc
    else (String.utf8EncodeChar c).foldr
      (fun b acc => '%' :: hexDigit (b.toNat / 16) :: hexDigit (b.toNat % 16) :: acc) acc) []⟩

/-- Go `htmlEscape`: replace the five characters special in HTML. -/
def htmlEscape (s : String) : String :=
  ⟨s.data.foldr (fun c acc =>
    if c = '&' then "&amp;".data ++ acc
    else if c = '<' then "&lt;".data ++ acc
    else if c = '>' then "&gt;".data ++ acc
    else if c = '"' then "&#34;".data ++ acc
    else if c = Char.ofNat 39 then "&#39;".data ++ acc
    else c :: acc) []⟩

/-- Go `http.Redirect` for a target without scheme and host (the target parses
as a path, possibly with a query): the target is made absolute and cleaned, the
`Location` field is set, and GET requests get a short HTML body. -/
def Redirect (w : ResponseWriter) (r : Request) (url : String) (code : Nat) :
    ResponseWriter :=
  let oldpath := if r.URL.Path = "" then "/" else r.URL.Path
  let url := if url.data.head? ≠ some '/' then path.dirOf oldpath ++ url else url
  let target : String := ⟨url.data.takeWhile (fun c => c ≠ '?')⟩
  let query : String := ⟨url.data.dropWhile (fun c => c ≠ '?')⟩
  let trailing := HasSuffix target "/"
  let target := path.Clean target
  let target := if trailing ∧ ¬ HasSuffix target "/" then target ++ "/" else target
  let url := target ++ query
  let hadCT := Header.Has w.header "Content-Type"
  let w := { w with header := Header.Set w.header "Location" (hexEscapeNonASCII url) }
  let w :=
    if ¬ hadCT ∧ (r.Method = "GET" ∨ r.Method = "HEAD") then
      { w with header := Header.Set w.header "Content-Type" "text/html; charset=utf-8" }
    else w
  let w := w.WriteHeader code
  if ¬ hadCT ∧ r.Method = "GET" then
    Fprintln w ("<a href=\"" ++ htmlEscape url ++ "\">" ++ StatusText code ++ "</a>.\n")
  else w

/-- Go `localRedirect`: a 301 to a relative location, keeping the query. -/
def localRedirect (w : ResponseWriter) (r : Request) (newPath : String) : ResponseWriter :=
  let newPath := if r.URL.RawQuery ≠ "" then newPath ++ "?" ++ r.URL.RawQuery else newPath
  let w := { w with header := Header.Set w.header "Location" newPath }
  w.WriteHeader 301

/-- Go `http.Handler`: library handlers act on the response writer only. -/
abbrev Handler := ResponseWriter → Request → ResponseWriter

/-- Go `http.StripPrefix`: serve with the prefix removed from `Path` (and from
`RawPath` if set); reply 404 when either lacks the prefix. -/
def StripPrefix (pre : String) (h : Handler) : Handler :=
  if pre = "" then h
  else fun w r =>
    let p := TrimPrefix r.URL.Path pre
    let rp := TrimPrefix r.URL.RawPath pre
    if p.data.length < r.URL.Path.data.length ∧
        (r.URL.RawPath = "" ∨ rp.data.length < r.URL.RawPath.data.length) then
      h w { r with URL := { r.URL with Path := p, RawPath := rp } }
    else NotFound w r

/-- Go `http.FS(fsys)` over a sub-tree of an embedded file system. -/
structure ioFS where
  /-- The wrapped file system. -/
  fsys : fs.subFS
  deriving DecidableEq, Repr

/-- Go `http.FileSystem`; the only implementation in this program is `ioFS`. -/
abbrev FileSystem := ioFS

/-- Go `http.FS`. -/
def FS (fsys : fs.subFS) : FileSystem := ⟨fsys⟩

/-- The loop of Go `mapOpenError` over the first `i` elements and onwards: a
prefix of the name that is not a directory turns the error into `ErrNotExist`. -/
def mapOpenErrorLoop (originalErr : fs.PathError) (parts : List (List Char))
    (stat : String → Except fs.PathError embed.Node) : Nat → Nat → fs.PathError
  | 0, _ => originalErr
  | fuel + 1, i =>
    if parts.length ≤ i then originalErr
    else if parts.getD i [] = [] then mapOpenErrorLoop originalErr parts stat fuel (i + 1)
    else
      match stat ⟨path.joinSlash (parts.take (i + 1))⟩ with
      | .error _ => originalErr
      | .ok n =>
        if ¬ n.IsDir then .ErrNotExist
        else mapOpenErrorLoop originalErr parts stat fuel (i + 1)

/-- Go `mapOpenError`. -/
def mapOpenError (originalErr : fs.PathError) (name : String)
    (stat : String → Except fs.PathError embed.Node) : fs.PathError :=
  if originalErr = .ErrNotExist then originalErr
  else
    let parts := path.splitSlash name.data
    mapOpenErrorLoop originalErr parts stat parts.length 0

/-- The method `ioFS.Open`. -/
def ioFS.Open (f : ioFS) (name : String) : Except fs.PathError embed.Node :=
  let name := if name = "/" then "." else TrimPrefix name "/"
  match f.fsys.Open name with
  | .error e => .error (mapOpenError e name (fun p => f.fsys.Open p))
  | .ok n => .ok n

/-- Go `toHTTPError`: the reply for a failed open. -/
def toHTTPError (err : fs.PathError) : String × Nat :=
  if err = .ErrNotExist then ("404 page not found", 404)
  else ("500 Internal Server Error", 500)

/-- The parts of `net/http` and `mime` that are not embedded: they are
parameters of the file server. -/
structure Library where
  /-- The `Content-Type` chosen for a file from its name and contents
  (`mime.TypeByExtension`, falling back to `DetectContentType`). -/
  contentType : String → Bytes → String
  /-- The HTML page that `dirList` writes for a directory of a file system. -/
  dirList : FileSystem → String → Bytes
  /-- The reply of `serveContent` and `dirList` to a request that carries
  conditional or range fields (RFC 7232 and RFC 7233 processing). -/
  conditional : ResponseWriter → Request → embed.Node → ResponseWriter

/-- Whether the request carries a field that `checkPreconditions` or the range
logic of `serveContent` looks at. -/
def Request.conditional (r : Request) : Bool :=
  Header.Get r.Header "If-Match" ≠ "" ||
  Header.Get r.Header "If-Unmodified-Since" ≠ "" ||
  Header.Get r.Header "If-None-Match" ≠ "" ||
  Header.Get r.Header "If-Modified-Since" ≠ "" ||
  Header.Get r.Header "Range" ≠ ""

/-- Go `serveContent` for an embedded file (zero modification time, known
size): content type, `Accept-Ranges`, `Content-Length`, status 200 and, unless
the method is HEAD, the whole content. -/
def serveContent (lib : Library) (w : ResponseWriter) (r : Request) (name : String)
    (content : Bytes) : ResponseWriter :=
  if r.conditional then lib.conditional w r (.file name content)
  else
    let w :=
      if ¬ Header.Has w.header "Content-Type" then
        { w with header := Header.Set w.header "Content-Type" (lib.contentType name content) }
      else w
    let w := { w with header := Header.Set w.header "Accept-Ranges" "bytes" }
    let w :=
      if Header.Get w.header "Content-Encoding" = "" then
        { w with header := Header.Set w.header "Content-Length" (toString content.length) }
      else w
    let w := w.WriteHeader 200
    if r.Method ≠ "HEAD" then (w.Write content).1 else w

/-- Go `dirList` for an embedded directory: an HTML listing with status 200. -/
def dirList (lib : Library) (w : ResponseWriter) (r : Request) (root : FileSystem)
    (name : String) : ResponseWriter :=
  if r.conditional then lib.conditional w r (.dir name)
  else
    let w := { w with header := Header.Set w.header "Content-Type" "text/html; charset=utf-8" }
    (w.Write (lib.dirList root name)).1

/-- Go `serveFile` with `redirect = true`, as called by the file server. -/
def serveFile (lib : Library) (w : ResponseWriter) (r : Request) (root : FileSystem)
    (name : String) : ResponseWriter :=
  if HasSuffix r.URL.Path "/index.html" then localRedirect w r "./"
  else
    match root.Open name with
    | .error err =>
      let (msg, code) := toHTTPError err
      Error w msg code
    | .ok d =>
      let url := r.URL.Path
      if d.IsDir ∧ url.data.getLast? ≠ some '/' then
        localRedirect w r (path.Base url ++ "/")
      else if ¬ d.IsDir ∧ url.data.getLast? = some '/' then
        let base := path.Base url
        if base = "/" ∨ base = "." then
          Error w "http: attempting to traverse a non-directory" 500
        else localRedirect w r ("../" ++ base)
      else
        match d with
        | .file fname content => serveContent lib w r fname content
        | .dir _ =>
          match root.Open (TrimSuffix name "/" ++ "/index.html") with
          | .ok (.file fname content) => serveContent lib w r fname content
          | .ok (.dir _) => dirList lib w r root (TrimSuffix name "/" ++ "/index.html")
          | .error _ => dirList lib w r root name

/-- Go `http.FileServer`: the method `fileHandler.ServeHTTP`. -/
def FileServer (lib : Library) (root : FileSystem) : Handler :=
  fun w r =>
    let upath := r.URL.Path
    let upath := if ¬ HasPrefix upath "/" then "/" ++ upath else upath
    let r := { r with URL := { r.URL with Path := upath } }
    serveFile lib w r root (path.Clean upath)

/-- Go `http.MethodGet`. -/
def MethodGet : String := "GET"

/-- Go `http.StatusOK`. -/
def StatusOK : Nat := 200

/-- Go `http.StatusMovedPermanently`. -/
def StatusMovedPermanently : Nat := 301

/-- Go `http.StatusNotFound`. -/
def StatusNotFound : Nat := 404

/-- Go `http.StatusInternalServerError`. -/
def StatusInternalServerError : Nat := 500

/-- What the client receives: status, header fields and body. -/
structure Response where
  /-- The status code, if the header was written. -/
  status : Option Nat
  /-- The header fields that were sent. -/
  header : Header
  /-- The body bytes. -/
  body : Bytes
  deriving DecidableEq, Repr

/-- The response recorded by a writer. -/
def ResponseWriter.response (w : ResponseWriter) : Response :=
  { status := w.status, header := w.sentHeader, body := w.body }

end http

/-! ## Package `wasilog` -/

namespace wasilog

/-- The severity of a log record. -/
inductive Level where
  /-- Emitted by `logger.Info`. -/
  | Info
  /-- Emitted by `logger.Warn`. -/
  | Warn
  /-- Emitted by `logger.Error`. -/
  | Error
  deriving DecidableEq, Repr

/-- One record written by a `wasilog.ContextLogger`. -/
structure Record where
  /-- The context name of the logger. -/
  logger : String
  /-- The severity. -/
  level : Level
  /-- The message. -/
  msg : String
  /-- The key-value attributes. -/
  attrs : List (String × String)
  deriving DecidableEq, Repr

end wasilog

/-! ## `main.go` -/

/-- A call made by the router `handler` while it dispatches a request. -/
inductive Call where
  /-- The call `handleSwaggerSpec(w, r)`. -/
  | handleSwaggerSpec
  /-- The call `http.Redirect(w, r, url, code)`. -/
  | Redirect (url : String) (code : Nat)
  /-- The call `fsHandler.ServeHTTP(w, r)` of the static asset handler. -/
  | ServeHTTP
  /-- The call `handleHelloWorld(w, r)`. -/
  | handleHelloWorld
  /-- The call `http.Error(w, msg, code)`. -/
  | Error (msg : String) (code : Nat)
  deriving DecidableEq, Repr

/-- The package-level state of `main.go` after `init`, with the log output and
the record of calls. -/
structure World where
  /-- The variable `swaggerSpec`: the embedded `docs/swagger.json`. -/
  swaggerSpec : embed.FS
  /-- The variable `swaggerUIFiles`: the embedded `swagger_ui_dist` tree. -/
  swaggerUIFiles : embed.FS
  /-- The variable `swaggerUIFS`. -/
  swaggerUIFS : http.FileSystem
  /-- The records written by the loggers, oldest first. -/
  log : List wasilog.Record
  /-- The calls made by `handler` when dispatching, oldest first. -/
  calls : List Call
  deriving DecidableEq, Repr

/-- Append a log record. -/
def World.logged (W : World) (logger : String) (level : wasilog.Level) (msg : String)
    (attrs : List (String × String)) : World :=
  { W with log := W.log ++ [⟨logger, level, msg, attrs⟩] }

/-- Record a call. -/
def World.call (W : World) (c : Call) : World :=
  { W with calls := W.calls ++ [c] }

/-- The function `init` of `main.go`: builds `swaggerUIFS` from the
`swagger_ui_dist` directory of `swaggerUIFiles` and registers `handler`; an
error result is the panic. -/
def init (swaggerSpec swaggerUIFiles : embed.FS) : Except String World :=
  match fs.Sub swaggerUIFiles "swagger_ui_dist" with
  | .error err => .error ("FATAL: Failed to create sub-filesystem for Swagger UI: " ++ err)
  | .ok subFS =>
    .ok { swaggerSpec := swaggerSpec, swaggerUIFiles := swaggerUIFiles,
          swaggerUIFS := http.FS subFS, log := [], calls := [] }

/-- The function `handleSwaggerSpec` of `main.go`. -/
def handleSwaggerSpec (W : World) (w : http.ResponseWriter) (_r : http.Request) :
    World × http.ResponseWriter :=
  let w := { w with header := http.Header.Set w.header "Content-Type" "application/json" }
  match W.swaggerSpec.ReadFile "docs/swagger.json" with
  | .error err =>
    let W := W.logged "handleSwaggerSpec" .Error "Could not read embedded swagger spec"
      [("error", err.Error "docs/swagger.json")]
    (W, http.Error w "Could not read embedded swagger spec" http.StatusInternalServerError)
  | .ok spec =>
    match w.Write spec with
    | (w, some writeErr) =>
      (W.logged "handleSwaggerSpec" .Error "Failed to write swagger spec to response"
        [("error", writeErr)], w)
    | (w, none) => (W, w)

/-- The function `handleHelloWorld` of `main.go`. -/
def handleHelloWorld (W : World) (w : http.ResponseWriter) (_r : http.Request) :
    World × http.ResponseWriter :=
  let w := { w with header := http.Header.Set w.header "Content-Type" "text/plain" }
  let w := w.WriteHeader http.StatusOK
  match w.Write (bytes "Hello, World!") with
  | (w, some err) =>
    (W.logged "handleHelloWorld" .Error "Failed to write Hello, World! response"
      [("error", err)], w)
  | (w, none) => (W, w)

/-- The function `handler` of `main.go`: the router. -/
def handler (lib : http.Library) (W : World) (w : http.ResponseWriter) (r : http.Request) :
    World × http.ResponseWriter :=
  let W := W.logged "handler" .Info "Request received"
    [("method", r.Method), ("path", r.URL.Path)]
  if r.URL.Path = "/swagger/doc.json" ∧ r.Method = http.MethodGet then
    handleSwaggerSpec (W.call .handleSwaggerSpec) w r
  else if HasPrefix r.URL.Path "/swagger/" ∨ r.URL.Path = "/swagger" then
    if r.URL.Path = "/swagger" then
      (W.call (.Redirect "/swagger/" http.StatusMovedPermanently),
        http.Redirect w r "/swagger/" http.StatusMovedPermanently)
    else
      let fsHandler := http.StripPrefix "/swagger/" (http.FileServer lib W.swaggerUIFS)
      (W.call .ServeHTTP, fsHandler w r)
  else if r.URL.Path = "/hello" ∧ r.Method = http.MethodGet then
    handleHelloWorld (W.call .handleHelloWorld) w r
  else
    let W := W.logged "handler" .Warn "Endpoint not found" []
    (W.call (.Error ("Endpoint not found: " ++ r.URL.Path) http.StatusNotFound),
      http.Error w ("Endpoint not found: " ++ r.URL.Path) http.StatusNotFound)

/-- One request served through the registered handler with a new response
writer: the world afterwards and the response. -/
def serve (lib : http.Library) (W : World) (r : http.Request) : World × http.Response :=
  let out := handler lib W http.newResponseWriter r
  (out.1, out.2.response)

/-- The world after a sequence of requests has been served. -/
def serveAll (lib : http.Library) (W : World) (rs : List http.Request) : World :=
  rs.foldl (fun W r => (serve lib W r).1) W

/-- The calls that handling one request adds to the record. -/
def callsOf (lib : http.Library) (W : World) (r : http.Request) : List Call :=
  (serve lib W r).1.calls.drop W.calls.length

/-- The log records that handling one request adds. -/
def logOf (lib : http.Library) (W : World) (r : http.Request) : List wasilog.Record :=
  (serve lib W r).1.log.drop W.log.length

/-- The record that `handler` writes on its fallback branch. -/
def notFoundRecord : wasilog.Record :=
  ⟨"handler", .Warn, "Endpoint not found", []⟩

/-- A request with the given method and path and nothing else. -/
def request (method target : String) : http.Request :=
  { Method := method, Header := [], URL := { Path := target, RawPath := "", RawQuery := "" } }

/-! ## Sample data -/

/-- A library instance for the examples. -/
def sampleLibrary : http.Library :=
  { contentType := fun _ _ => "application/octet-stream",
    dirList := fun _ _ => bytes "<pre>\n</pre>\n",
    conditional := fun w _ _ => w.WriteHeader 304 }

/-- An embedded spec document for the examples. -/
def sampleSpec : embed.FS :=
  ⟨[⟨"docs/swagger.json", bytes "[1]"⟩]⟩

/-- An embedded asset tree for the examples. -/
def sampleUI : embed.FS :=
  ⟨[⟨"swagger_ui_dist/index.html", bytes "<html></html>"⟩,
    ⟨"swagger_ui_dist/swagger-ui.css", bytes "body"⟩,
    ⟨"swagger_ui_dist/img/logo.svg", bytes "<svg/>"⟩]⟩

/-- The world that `init` builds from the sample blobs. -/
def sampleWorld : World :=
  { swaggerSpec := sampleSpec, swaggerUIFiles := sampleUI,
    swaggerUIFS := http.FS ⟨sampleUI, "swagger_ui_dist"⟩, log := [], calls := [] }

/-- A world whose spec document is missing. -/
def brokenWorld : World :=
  { sampleWorld with swaggerSpec := ⟨[]⟩ }

/-! ## Properties of the router -/

open http

/-- The records appended to a list are what remains after dropping the old ones. -/
theorem drop_length_append {α : Type} (xs ys : List α) : (xs ++ ys).drop xs.length = ys := by
  simp

/-- A path that starts with `/swagger/` is not `/hello`. -/
theorem hello_not_swagger : HasPrefix "/hello" "/swagger/" = false := by decide

/-- The spec document path starts with `/swagger/`. -/
theorem doc_json_swagger : HasPrefix "/swagger/doc.json" "/swagger/" = true := by decide

/-- The response of the fallback branch of `handler` for a path. -/
theorem fallback_response (lib : Library) (W : World) (r : Request)
    (h1 : r.URL.Path ≠ "/swagger") (h2 : HasPrefix r.URL.Path "/swagger/" = false)
    (h3 : ¬ (r.URL.Path = "/hello" ∧ r.Method = "GET")) :
    serve lib W r =
      (((W.logged "handler" .Info "Request received"
            [("method", r.Method), ("path", r.URL.Path)]).logged
          "handler" .Warn "Endpoint not found" []).call
          (.Error ("Endpoint not found: " ++ r.URL.Path) 404),
        { status := some 404,
          header := [("Content-Type", "text/plain; charset=utf-8"),
            ("X-Content-Type-Options", "nosniff")],
          body := bytes ("Endpoint not found: " ++ r.URL.Path ++ "\n") }) := by
  have h0 : r.URL.Path ≠ "/swagger/doc.json" := by
    intro h
    rw [h] at h2
    exact absurd h2 (by decide)
  simp only [serve, handler, MethodGet]
  rw [if_neg (fun h => h0 h.1), if_neg (by simp [h1, h2]), if_neg h3]
  simp +decide [Error, Fprintln, StatusNotFound, ResponseWriter.WriteHeader,
    ResponseWriter.Write, newResponseWriter, ResponseWriter.response, Header.Set, Header.Del]

/-- C1 (as stated, refuted): `GET /unknown/path` is answered with status 404, but
the body is not the bare text `Endpoint not found: /unknown/path`. -/
theorem unknown_path_body_not_bare :
    ¬ ((serve sampleLibrary sampleWorld (request "GET" "/unknown/path")).2.status = some 404 ∧
       (serve sampleLibrary sampleWorld (request "GET" "/unknown/path")).2.body =
         bytes ("Endpoint not found: " ++ "/unknown/path")) := by
  decide

/-- C1 (amended): for every request whose path is not `/swagger`, does not start
with `/swagger/` and is not `/hello`, whatever the method, `handler` answers with
status 404 and the body `"Endpoint not found: " + p` followed by one newline. -/
theorem not_found_response (lib : Library) (W : World) (r : Request)
    (h1 : r.URL.Path ≠ "/swagger") (h2 : HasPrefix r.URL.Path "/swagger/" = false)
    (h3 : r.URL.Path ≠ "/hello") :
    (serve lib W r).2.status = some 404 ∧
    (serve lib W r).2.body = bytes ("Endpoint not found: " ++ r.URL.Path ++ "\n") := by
  rw [fallback_response lib W r h1 h2 (fun h => h3 h.1)]
  exact ⟨rfl, rfl⟩

/-- Witness for C1 (amended): `PUT /unknown/path`. -/
theorem not_found_response_witness :
    (serve sampleLibrary sampleWorld (request "PUT" "/unknown/path")).2.status = some 404 ∧
    (serve sampleLibrary sampleWorld (request "PUT" "/unknown/path")).2.body =
      bytes ("Endpoint not found: " ++ "/unknown/path" ++ "\n") :=
  not_found_response sampleLibrary sampleWorld (request "PUT" "/unknown/path")
    (by decide) (by decide) (by decide)

/-- C2: the request `GET /hello` is answered with status 200, the single header
field `Content-Type: text/plain` and the 13 bytes `Hello, World!`, whatever the
embedded blobs and the other fields of the request are; it is dispatched to
`handleHelloWorld`. -/
theorem hello_world_response (lib : Library) (W : World) (header : Header)
    (rawPath rawQuery : String) :
    (serve lib W ⟨"GET", header, ⟨"/hello", rawPath, rawQuery⟩⟩).2 =
      { status := some 200, header := [("Content-Type", "text/plain")],
        body := bytes "Hello, World!" } ∧
    Header.Get (serve lib W ⟨"GET", header, ⟨"/hello", rawPath, rawQuery⟩⟩).2.header
      "Content-Type" = "text/plain" ∧
    (bytes "Hello, World!").length = 13 ∧
    callsOf lib W ⟨"GET", header, ⟨"/hello", rawPath, rawQuery⟩⟩ = [.handleHelloWorld] := by
  simp +decide [callsOf, serve, handler, handleHelloWorld, MethodGet, World.logged, World.call,
    ResponseWriter.WriteHeader, ResponseWriter.Write, newResponseWriter,
    ResponseWriter.response, Header.Set, Header.Del, Header.Get, StatusOK]

/-- C3: for every method and every other request field, a request for `/swagger`
is answered with status 301 and `Location: /swagger/`; the only call `handler`
makes is `http.Redirect`, so neither the static asset handler nor the spec
handler nor the fallback branch runs. -/
theorem swagger_redirect (lib : Library) (W : World) (m : String) (header : Header)
    (rawPath rawQuery : String) :
    (serve lib W ⟨m, header, ⟨"/swagger", rawPath, rawQuery⟩⟩).2.status = some 301 ∧
    Header.Get (serve lib W ⟨m, header, ⟨"/swagger", rawPath, rawQuery⟩⟩).2.header
      "Location" = "/swagger/" ∧
    callsOf lib W ⟨m, header, ⟨"/swagger", rawPath, rawQuery⟩⟩ = [.Redirect "/swagger/" 301] ∧
    notFoundRecord ∉ logOf lib W ⟨m, header, ⟨"/swagger", rawPath, rawQuery⟩⟩ := by
  have hc : path.Clean "/swagger/" = "/swagger" := by decide
  have he : hexEscapeNonASCII "/swagger/" = "/swagger/" := by decide
  by_cases hg : m = "GET"
  · subst hg
    simp +decide [callsOf, logOf, serve, handler, MethodGet, World.logged, World.call,
      Redirect, hc, he, Fprintln, StatusMovedPermanently, ResponseWriter.WriteHeader,
      ResponseWriter.Write, newResponseWriter, ResponseWriter.response, Header.Set,
      Header.Del, Header.Get, Header.Has, notFoundRecord]
  · by_cases hh : m = "HEAD"
    · subst hh
      simp +decide [callsOf, logOf, serve, handler, MethodGet, World.logged, World.call,
        Redirect, hc, he, Fprintln, StatusMovedPermanently, ResponseWriter.WriteHeader,
        ResponseWriter.Write, newResponseWriter, ResponseWriter.response, Header.Set,
        Header.Del, Header.Get, Header.Has, notFoundRecord]
    · simp +decide [callsOf, logOf, serve, handler, MethodGet, World.logged, World.call,
        Redirect, hc, he, hg, hh, Fprintln, StatusMovedPermanently, ResponseWriter.WriteHeader,
        ResponseWriter.Write, newResponseWriter, ResponseWriter.response, Header.Set,
        Header.Del, Header.Get, Header.Has, notFoundRecord]

/-- C4 (as stated, refuted): the body of the reply to `POST /hello` is not the
bare text `Endpoint not found: /hello`. -/
theorem post_hello_body_not_bare :
    ¬ ((serve sampleLibrary sampleWorld (request "POST" "/hello")).2.status = some 404 ∧
       (serve sampleLibrary sampleWorld (request "POST" "/hello")).2.body =
         bytes "Endpoint not found: /hello") := by
  decide

/-- C4 (amended): for every method other than GET, a request for `/hello` is
dispatched to the fallback branch (not to `handleHelloWorld`) and answered with
status 404, not 405, and the body `Endpoint not found: /hello` followed by one
newline. -/
theorem hello_wrong_method (lib : Library) (W : World) (m : String) (header : Header)
    (rawPath rawQuery : String) (hm : m ≠ "GET") :
    (serve lib W ⟨m, header, ⟨"/hello", rawPath, rawQuery⟩⟩).2.status = some 404 ∧
    (serve lib W ⟨m, header, ⟨"/hello", rawPath, rawQuery⟩⟩).2.status ≠ some 405 ∧
    (serve lib W ⟨m, header, ⟨"/hello", rawPath, rawQuery⟩⟩).2.body =
      bytes "Endpoint not found: /hello\n" ∧
    callsOf lib W ⟨m, header, ⟨"/hello", rawPath, rawQuery⟩⟩ =
      [.Error "Endpoint not found: /hello" 404] ∧
    notFoundRecord ∈ logOf lib W ⟨m, header, ⟨"/hello", rawPath, rawQuery⟩⟩ := by
  have h := fallback_response lib W ⟨m, header, ⟨"/hello", rawPath, rawQuery⟩⟩
    (by simp) hello_not_swagger (fun h => hm h.2)
  simp only [callsOf, logOf]
  rw [h]
  simp +decide [World.logged, World.call, notFoundRecord]

/-- Witness for C4 (amended): `POST /hello`. -/
theorem hello_wrong_method_witness :
    (serve sampleLibrary sampleWorld ⟨"POST", [], ⟨"/hello", "", ""⟩⟩).2.status = some 404 ∧
    (serve sampleLibrary sampleWorld ⟨"POST", [], ⟨"/hello", "", ""⟩⟩).2.status ≠ some 405 ∧
    (serve sampleLibrary sampleWorld ⟨"POST", [], ⟨"/hello", "", ""⟩⟩).2.body =
      bytes "Endpoint not found: /hello\n" ∧
    callsOf sampleLibrary sampleWorld ⟨"POST", [], ⟨"/hello", "", ""⟩⟩ =
      [.Error "Endpoint not found: /hello" 404] ∧
    notFoundRecord ∈ logOf sampleLibrary sampleWorld ⟨"POST", [], ⟨"/hello", "", ""⟩⟩ :=
  hello_wrong_method sampleLibrary sampleWorld "POST" [] "" "" (by decide)

/-- The response and log of `handleSwaggerSpec` through a new writer, by the
outcome of reading the embedded document. -/
theorem handleSwaggerSpec_cases (W : World) (r : Request) :
    handleSwaggerSpec W newResponseWriter r =
      match W.swaggerSpec.ReadFile "docs/swagger.json" with
      | .ok spec =>
        (W, { header := [("Content-Type", "application/json")], status := some 200,
              sentHeader := [("Content-Type", "application/json")], body := spec,
              writeErr := none })
      | .error err =>
        (W.logged "handleSwaggerSpec" .Error "Could not read embedded swagger spec"
            [("error", err.Error "docs/swagger.json")],
          { header := [("Content-Type", "text/plain; charset=utf-8"),
              ("X-Content-Type-Options", "nosniff")],
            status := some 500,
            sentHeader := [("Content-Type", "text/plain; charset=utf-8"),
              ("X-Content-Type-Options", "nosniff")],
            body := bytes "Could not read embedded swagger spec\n", writeErr := none }) := by
  unfold handleSwaggerSpec
  cases W.swaggerSpec.ReadFile "docs/swagger.json" <;>
    simp +decide [Error, Fprintln, StatusInternalServerError, ResponseWriter.WriteHeader,
      ResponseWriter.Write, newResponseWriter, Header.Set, Header.Del]

/-- C5: when the embedded `docs/swagger.json` is readable, `GET /swagger/doc.json`
is answered with status 200, `Content-Type: application/json` and exactly the
bytes of the embedded document; `handler` dispatches it to `handleSwaggerSpec`
and does not call the static asset handler, although the path starts with
`/swagger/`. -/
theorem swagger_spec_response (lib : Library) (W : World) (header : Header)
    (rawPath rawQuery : String) (spec : Bytes)
    (hread : W.swaggerSpec.ReadFile "docs/swagger.json" = .ok spec) :
    (serve lib W ⟨"GET", header, ⟨"/swagger/doc.json", rawPath, rawQuery⟩⟩).2 =
      { status := some 200, header := [("Content-Type", "application/json")],
        body := spec } ∧
    Header.Get (serve lib W ⟨"GET", header, ⟨"/swagger/doc.json", rawPath, rawQuery⟩⟩).2.header
      "Content-Type" = "application/json" ∧
    callsOf lib W ⟨"GET", header, ⟨"/swagger/doc.json", rawPath, rawQuery⟩⟩ =
      [.handleSwaggerSpec] ∧
    Call.ServeHTTP ∉ callsOf lib W ⟨"GET", header, ⟨"/swagger/doc.json", rawPath, rawQuery⟩⟩ ∧
    HasPrefix "/swagger/doc.json" "/swagger/" = true := by
  have h : ∀ W' : World, W'.swaggerSpec = W.swaggerSpec →
      handleSwaggerSpec W' newResponseWriter
        ⟨"GET", header, ⟨"/swagger/doc.json", rawPath, rawQuery⟩⟩ =
      (W', { header := [("Content-Type", "application/json")], status := some 200,
              sentHeader := [("Content-Type", "application/json")], body := spec,
              writeErr := none }) := by
    intro W' hW
    rw [handleSwaggerSpec_cases, hW, hread]
  simp +decide [callsOf, serve, handler, MethodGet, h, World.logged, World.call,
    ResponseWriter.response, Header.Get]

/-- Witness for C5: the sample world, whose spec document is `[1]`. -/
theorem swagger_spec_response_witness :
    (serve sampleLibrary sampleWorld ⟨"GET", [], ⟨"/swagger/doc.json", "", ""⟩⟩).2 =
      { status := some 200, header := [("Content-Type", "application/json")],
        body := bytes "[1]" } ∧
    Header.Get (serve sampleLibrary sampleWorld
      ⟨"GET", [], ⟨"/swagger/doc.json", "", ""⟩⟩).2.header "Content-Type" =
        "application/json" ∧
    callsOf sampleLibrary sampleWorld ⟨"GET", [], ⟨"/swagger/doc.json", "", ""⟩⟩ =
      [.handleSwaggerSpec] ∧
    Call.ServeHTTP ∉ callsOf sampleLibrary sampleWorld
      ⟨"GET", [], ⟨"/swagger/doc.json", "", ""⟩⟩ ∧
    HasPrefix "/swagger/doc.json" "/swagger/" = true :=
  swagger_spec_response sampleLibrary sampleWorld [] "" "" (bytes "[1]") (by rfl)

/-- C6: `handleSwaggerSpec` answers with status 500 exactly when reading the
embedded document fails.  In that case the content type is
`text/plain; charset=utf-8` (the `application/json` set before the read is
replaced) and the body is the fixed message `Could not read embedded swagger
spec` with its final newline, and an error is logged; otherwise the response is
status 200, `Content-Type: application/json` and the bytes of the document. -/
theorem swagger_spec_read_failure (W : World) (r : Request) :
    ((handleSwaggerSpec W newResponseWriter r).2.response.status = some 500 ↔
      ∃ err, W.swaggerSpec.ReadFile "docs/swagger.json" = .error err) ∧
    (∀ err, W.swaggerSpec.ReadFile "docs/swagger.json" = .error err →
      (handleSwaggerSpec W newResponseWriter r).2.response =
        { status := some 500,
          header := [("Content-Type", "text/plain; charset=utf-8"),
            ("X-Content-Type-Options", "nosniff")],
          body := bytes "Could not read embedded swagger spec\n" } ∧
      Header.Get (handleSwaggerSpec W newResponseWriter r).2.response.header "Content-Type" =
        "text/plain; charset=utf-8" ∧
      (handleSwaggerSpec W newResponseWriter r).2.response.body =
        bytes "Could not read embedded swagger spec" ++ bytes "\n" ∧
      (handleSwaggerSpec W newResponseWriter r).1.log = W.log ++
        [⟨"handleSwaggerSpec", .Error, "Could not read embedded swagger spec",
          [("error", err.Error "docs/swagger.json")]⟩]) ∧
    (∀ spec, W.swaggerSpec.ReadFile "docs/swagger.json" = .ok spec →
      (handleSwaggerSpec W newResponseWriter r).2.response =
        { status := some 200, header := [("Content-Type", "application/json")],
          body := spec }) := by
  rw [handleSwaggerSpec_cases]
  cases W.swaggerSpec.ReadFile "docs/swagger.json" <;>
    simp +decide [ResponseWriter.response, Header.Get, World.logged]

/-- Witness-style instance of C6 on both outcomes: the world without a spec
document gives the 500 reply, the sample world gives the document. -/
theorem swagger_spec_read_failure_witness :
    (handleSwaggerSpec brokenWorld newResponseWriter (request "GET" "/swagger/doc.json")).2.response =
      { status := some 500,
        header := [("Content-Type", "text/plain; charset=utf-8"),
          ("X-Content-Type-Options", "nosniff")],
        body := bytes "Could not read embedded swagger spec\n" } ∧
    (handleSwaggerSpec sampleWorld newResponseWriter (request "GET" "/swagger/doc.json")).2.response =
      { status := some 200, header := [("Content-Type", "application/json")],
        body := bytes "[1]" } :=
  ⟨((swagger_spec_read_failure brokenWorld (request "GET" "/swagger/doc.json")).2.1
      .ErrNotExist (by rfl)).1,
   (swagger_spec_read_failure sampleWorld (request "GET" "/swagger/doc.json")).2.2
      (bytes "[1]") (by rfl)⟩

/-- The call by which `handler` dispatches a request, branch by branch. -/
theorem callsOf_eq (lib : Library) (W : World) (r : Request) :
    callsOf lib W r =
      if r.URL.Path = "/swagger/doc.json" ∧ r.Method = "GET" then [.handleSwaggerSpec]
      else if HasPrefix r.URL.Path "/swagger/" = true ∨ r.URL.Path = "/swagger" then
        if r.URL.Path = "/swagger" then [.Redirect "/swagger/" 301] else [.ServeHTTP]
      else if r.URL.Path = "/hello" ∧ r.Method = "GET" then [.handleHelloWorld]
      else [.Error ("Endpoint not found: " ++ r.URL.Path) 404] := by
  have hs : ∀ W' : World, (handleSwaggerSpec W' newResponseWriter r).1.calls = W'.calls := by
    intro W'
    rw [handleSwaggerSpec_cases]
    cases W'.swaggerSpec.ReadFile "docs/swagger.json" <;> simp [World.logged]
  have hh : ∀ W' : World, (handleHelloWorld W' newResponseWriter r).1.calls = W'.calls := by
    intro W'
    simp [handleHelloWorld, ResponseWriter.Write, ResponseWriter.WriteHeader,
      newResponseWriter]
  simp only [callsOf, serve, handler, MethodGet, StatusMovedPermanently, StatusNotFound]
  split_ifs <;> simp [hs, hh, World.logged, World.call]

/-- What `handleSwaggerSpec` appends to the log is never the fallback warning. -/
theorem handleSwaggerSpec_log (W : World) (r : Request) :
    ∃ extra, (handleSwaggerSpec W newResponseWriter r).1.log = W.log ++ extra ∧
      notFoundRecord ∉ extra := by
  rw [handleSwaggerSpec_cases]
  cases W.swaggerSpec.ReadFile "docs/swagger.json" with
  | error e => exact ⟨_, rfl, by simp +decide [notFoundRecord]⟩
  | ok spec => exact ⟨[], by simp, by simp⟩

/-- The log records that `handler` writes for a request contain the fallback
warning exactly on the fallback branch. -/
theorem notFoundRecord_mem_logOf (lib : Library) (W : World) (r : Request) :
    notFoundRecord ∈ logOf lib W r ↔
      ¬ (r.URL.Path = "/swagger/doc.json" ∧ r.Method = "GET") ∧
      ¬ (HasPrefix r.URL.Path "/swagger/" = true ∨ r.URL.Path = "/swagger") ∧
      ¬ (r.URL.Path = "/hello" ∧ r.Method = "GET") := by
  have hh : ∀ W' : World, (handleHelloWorld W' newResponseWriter r).1.log = W'.log := by
    intro W'
    simp [handleHelloWorld, ResponseWriter.Write, ResponseWriter.WriteHeader,
      newResponseWriter]
  simp only [logOf, serve, handler, MethodGet, StatusMovedPermanently, StatusNotFound]
  split_ifs with h1 h2 h3 h4
  · obtain ⟨extra, he, hn⟩ := handleSwaggerSpec_log ((W.logged "handler" .Info
      "Request received" [("method", r.Method), ("path", r.URL.Path)]).call
        .handleSwaggerSpec) r
    rw [he]
    simp +decide [World.logged, World.call, notFoundRecord, h1] at hn ⊢
    exact hn
  · simp +decide [World.logged, World.call, notFoundRecord, h1, h2]
  · simp +decide [World.logged, World.call, notFoundRecord, h1, h2]
  · simp +decide [hh, World.logged, World.call, notFoundRecord, h1, h2, h4]
  · simp +decide [World.logged, World.call, notFoundRecord, h1, h2, h4]

/-- C10: the four dispatch outcomes of `handler` partition the requests.  The
fallback branch (the call `http.Error` with the `Endpoint not found` message,
and the warning in the log) is taken exactly when the path is not `/swagger`,
does not start with `/swagger/`, and the request is not `GET /hello`; the other
three outcomes are characterised likewise, `handler` makes exactly one dispatch
call per request, and the paths `/swaggerfoo`, `/swagger.json`, `/hello/`,
`/Hello`, `/hello/x` and the empty path reach the fallback for every method. -/
theorem dispatch_partition (lib : Library) (W : World) (r : Request) :
    (callsOf lib W r = [.Error ("Endpoint not found: " ++ r.URL.Path) 404] ↔
      r.URL.Path ≠ "/swagger" ∧ HasPrefix r.URL.Path "/swagger/" = false ∧
        ¬ (r.URL.Path = "/hello" ∧ r.Method = "GET")) ∧
    (notFoundRecord ∈ logOf lib W r ↔
      r.URL.Path ≠ "/swagger" ∧ HasPrefix r.URL.Path "/swagger/" = false ∧
        ¬ (r.URL.Path = "/hello" ∧ r.Method = "GET")) ∧
    (callsOf lib W r = [.handleSwaggerSpec] ↔
      r.URL.Path = "/swagger/doc.json" ∧ r.Method = "GET") ∧
    (callsOf lib W r = [.Redirect "/swagger/" 301] ↔ r.URL.Path = "/swagger") ∧
    (callsOf lib W r = [.ServeHTTP] ↔
      HasPrefix r.URL.Path "/swagger/" = true ∧
        ¬ (r.URL.Path = "/swagger/doc.json" ∧ r.Method = "GET")) ∧
    (callsOf lib W r = [.handleHelloWorld] ↔ r.URL.Path = "/hello" ∧ r.Method = "GET") ∧
    (∃ c, callsOf lib W r = [c]) ∧
    (∀ p ∈ ["/swaggerfoo", "/swagger.json", "/hello/", "/Hello", "/hello/x", ""],
      ∀ (m : String) (header : Header) (rawPath rawQuery : String),
        callsOf lib W ⟨m, header, ⟨p, rawPath, rawQuery⟩⟩ =
          [.Error ("Endpoint not found: " ++ p) 404] ∧
        (serve lib W ⟨m, header, ⟨p, rawPath, rawQuery⟩⟩).2.status = some 404) := by
  have hdoc : r.URL.Path = "/swagger/doc.json" → HasPrefix r.URL.Path "/swagger/" = true := by
    intro h
    rw [h]
    decide
  have hsw : r.URL.Path = "/swagger" → HasPrefix r.URL.Path "/swagger/" = false := by
    intro h
    rw [h]
    decide
  have hhe : r.URL.Path = "/hello" → HasPrefix r.URL.Path "/swagger/" = false := by
    intro h
    rw [h]
    decide
  refine ⟨?_, ?_, ?_, ?_, ?_, ?_, ?_, ?_⟩
  · rw [callsOf_eq]
    split_ifs with h1 h2 h3 h4
    · simp [hdoc h1.1]
    · simp [h3]
    · have : HasPrefix r.URL.Path "/swagger/" = true := by tauto
      simp [this]
    · simp [h4]
    · have h5 : ¬ HasPrefix r.URL.Path "/swagger/" = true := fun h => h2 (Or.inl h)
      have h6 : r.URL.Path ≠ "/swagger" := fun h => h2 (Or.inr h)
      simp only [Bool.not_eq_true] at h5
      simp [h5, h6, h4]
  · rw [notFoundRecord_mem_logOf]
    constructor
    · rintro ⟨_, h2, h3⟩
      refine ⟨fun h => h2 (Or.inr h), ?_, h3⟩
      cases hp : HasPrefix r.URL.Path "/swagger/"
      · rfl
      · exact absurd (Or.inl hp) h2
    · rintro ⟨h1, h2, h3⟩
      refine ⟨fun h => ?_, fun h => ?_, h3⟩
      · have := hdoc h.1
        simp [h2] at this
      · rcases h with h | h
        · simp [h2] at h
        · exact h1 h
  · rw [callsOf_eq]
    split_ifs with h1 h2 h3 h4 <;> simp [h1]
  · rw [callsOf_eq]
    split_ifs with h1 h2 h3 h4
    · have := hsw
      have := hdoc h1.1
      simp
      intro h
      simp [hsw h] at this
    · simp [h3]
    · simp [h3]
    · simp
      intro h
      exact h2 (Or.inr h)
    · simp
      intro h
      exact h2 (Or.inr h)
  · rw [callsOf_eq]
    split_ifs with h1 h2 h3 h4
    · simp [h1]
    · simp [hsw h3]
    · have : HasPrefix r.URL.Path "/swagger/" = true := by tauto
      simp [this, h1]
    · simp
      intro h
      exact absurd (Or.inl h) h2
    · simp
      intro h
      exact absurd (Or.inl h) h2
  · rw [callsOf_eq]
    split_ifs with h1 h2 h3 h4
    · simp
      intro h
      have := hdoc h1.1
      simp [hhe h] at this
    · simp
      intro h
      simp [h] at h3
    · simp
      intro h
      have : HasPrefix r.URL.Path "/swagger/" = true := by tauto
      simp [hhe h] at this
    · simp [h4]
    · simp
      intro h hm
      exact h4 ⟨h, hm⟩
  · rw [callsOf_eq]
    split_ifs <;> exact ⟨_, rfl⟩
  · intro p hp m header rawPath rawQuery
    simp only [List.mem_cons, List.mem_singleton, List.not_mem_nil, or_false] at hp
    have key : p ≠ "/swagger" ∧ HasPrefix p "/swagger/" = false ∧ p ≠ "/hello" := by
      rcases hp with h | h | h | h | h | h <;> subst h <;> decide
    have h := fallback_response lib W ⟨m, header, ⟨p, rawPath, rawQuery⟩⟩
      key.1 key.2.1 (fun h => key.2.2 h.1)
    constructor
    · simp only [callsOf]
      rw [h]
      simp [World.logged, World.call]
    · rw [h]

/-! ## Paths -/

/-- Splitting never yields the empty list of elements. -/
theorem splitSlash_ne_nil (s : List Char) : path.splitSlash s ≠ [] := by
  induction s with
  | nil => simp [path.splitSlash]
  | cons c cs ih =>
    unfold path.splitSlash
    split_ifs
    · simp
    · cases h : path.splitSlash cs <;> simp

/-- Joining the elements of a path gives the path back. -/
theorem joinSlash_splitSlash (s : List Char) : path.joinSlash (path.splitSlash s) = s := by
  induction s with
  | nil => simp [path.splitSlash, path.joinSlash]
  | cons c cs ih =>
    unfold path.splitSlash
    split_ifs with hc
    · cases h : path.splitSlash cs with
      | nil => exact absurd h (splitSlash_ne_nil cs)
      | cons e es =>
        rw [h] at ih
        simp [path.joinSlash, ih, hc]
    · cases h : path.splitSlash cs with
      | nil => exact absurd h (splitSlash_ne_nil cs)
      | cons e es =>
        rw [h] at ih
        cases es with
        | nil =>
          simp [path.joinSlash] at ih ⊢
          exact ih
        | cons e2 es2 =>
          simp [path.joinSlash] at ih ⊢
          exact ih

/-- Cleaning keeps every valid element. -/
theorem foldl_cleanStep_valid (rooted : Bool) (es stack : List (List Char))
    (h : ∀ e ∈ es, fs.validElement e = true) :
    es.foldl (path.cleanStep rooted) stack = es.reverse ++ stack := by
  induction es generalizing stack with
  | nil => simp
  | cons e es ih =>
    have he := h e (List.mem_cons_self _ _)
    simp only [fs.validElement, decide_eq_true_eq] at he
    have hstep : path.cleanStep rooted stack e = e :: stack := by
      simp [path.cleanStep, he.1, he.2.1, he.2.2]
    rw [List.foldl_cons, hstep, ih _ (fun x hx => h x (List.mem_cons_of_mem _ hx))]
    simp

/-- A path that ends with a slash has an empty last element. -/
theorem splitSlash_getLast (s : List Char) (h : s.getLast? = some '/') :
    (path.splitSlash s).getLast? = some [] := by
  induction s with
  | nil => simp at h
  | cons c cs ih =>
    cases cs with
    | nil =>
      simp at h
      subst h
      simp [path.splitSlash]
    | cons d ds =>
      rw [List.getLast?_cons_cons] at h
      have ih := ih h
      unfold path.splitSlash
      cases hs : path.splitSlash (d :: ds) with
      | nil => exact absurd hs (splitSlash_ne_nil _)
      | cons e es =>
        rw [hs] at ih
        have hj := joinSlash_splitSlash (d :: ds)
        rw [hs] at hj
        cases es with
        | nil =>
          simp at ih
          subst ih
          simp [path.joinSlash] at hj
        | cons e2 es2 =>
          rw [List.getLast?_cons_cons] at ih
          split_ifs <;> simp [List.getLast?_cons_cons, ih]

/-- A path whose elements are all valid is not empty and neither starts nor
ends with a slash. -/
theorem valid_elements_shape (s : List Char)
    (h : (path.splitSlash s).all fs.validElement = true) :
    s ≠ [] ∧ s.head? ≠ some '/' ∧ s.getLast? ≠ some '/' := by
  refine ⟨?_, ?_, ?_⟩
  · rintro rfl
    simp +decide [path.splitSlash, fs.validElement] at h
  · intro hh
    cases s with
    | nil => simp at hh
    | cons c cs =>
      simp at hh
      subst hh
      simp +decide [path.splitSlash, fs.validElement] at h
  · intro hl
    have h1 := splitSlash_getLast s hl
    have h2 : ([] : List Char) ∈ path.splitSlash s := List.mem_of_getLast?_eq_some h1
    have h3 := List.all_eq_true.mp h _ h2
    simp [fs.validElement] at h3

/-- Cleaning a rooted path with valid elements returns it unchanged. -/
theorem Clean_rooted_valid (a : String)
    (h : (path.splitSlash a.data).all fs.validElement = true) :
    path.Clean ("/" ++ a) = "/" ++ a := by
  have hne : ("/" ++ a : String) ≠ "" := by
    intro h0
    have := congrArg String.data h0
    simp at this
  have hsplit : path.splitSlash ("/" ++ a : String).data = [] :: path.splitSlash a.data := by
    simp [path.splitSlash]
  have hfold := foldl_cleanStep_valid true (path.splitSlash a.data) []
    (fun e he => List.all_eq_true.mp h e he)
  unfold path.Clean
  rw [if_neg hne]
  simp only [hsplit, List.foldl_cons]
  have h0 : path.cleanStep (decide (("/" ++ a : String).data.head? = some '/')) [] [] = [] := by
    simp [path.cleanStep]
  have hr : decide (("/" ++ a : String).data.head? = some '/') = true := by simp
  rw [hr] at h0 ⊢
  rw [h0, hfold]
  simp [joinSlash_splitSlash]
  apply String.ext
  simp

/-- Joining the asset directory and a path with valid elements concatenates them. -/
theorem Join_dist_valid (a : String)
    (h : (path.splitSlash a.data).all fs.validElement = true) :
    path.Join "swagger_ui_dist" a = "swagger_ui_dist/" ++ a := by
  have hshape := valid_elements_shape a.data h
  have ha : a ≠ "" := by
    rintro rfl
    exact hshape.1 rfl
  have hne : ("swagger_ui_dist" ++ "/" ++ a : String) ≠ "" := by
    intro h0
    have := congrArg String.data h0
    simp at this
  have hsplit : path.splitSlash ("swagger_ui_dist" ++ "/" ++ a : String).data =
      "swagger_ui_dist".data :: path.splitSlash a.data := by
    simp +decide [path.splitSlash]
  have hall : ∀ e ∈ "swagger_ui_dist".data :: path.splitSlash a.data,
      fs.validElement e = true := by
    intro e he
    rcases List.mem_cons.mp he with rfl | he
    · decide
    · exact List.all_eq_true.mp h e he
  have hfold := foldl_cleanStep_valid false _ [] hall
  have hr : decide (("swagger_ui_dist" ++ "/" ++ a : String).data.head? = some '/') = false := by
    simp +decide
  unfold path.Join
  rw [if_neg (by simp +decide), if_neg (by decide)]
  unfold path.Clean
  rw [if_neg hne]
  simp only [hsplit, hr, hfold]
  cases hs : path.splitSlash a.data with
  | nil => exact absurd hs (splitSlash_ne_nil _)
  | cons e es =>
    have hj := joinSlash_splitSlash a.data
    rw [hs] at hj
    simp [path.joinSlash, hj]
    apply String.ext
    simp

/-! ## The static asset handler -/

/-- A string has each of its left factors as a prefix. -/
theorem HasPrefix_append (pre a : String) : HasPrefix (pre ++ a) pre = true := by
  simp [HasPrefix, List.isPrefixOf_iff_prefix]

/-- Trimming a left factor leaves the rest. -/
theorem TrimPrefix_append (pre a : String) : TrimPrefix (pre ++ a) pre = a := by
  unfold TrimPrefix
  rw [if_pos (HasPrefix_append pre a)]
  apply String.ext
  simp

/-- Trimming a non-empty prefix that is present shortens the string. -/
theorem TrimPrefix_length_lt (s pre : String) (h : HasPrefix s pre = true)
    (hne : pre.data ≠ []) : (TrimPrefix s pre).data.length < s.data.length := by
  unfold TrimPrefix
  rw [if_pos h]
  have hle : pre.data.length ≤ s.data.length := by
    have := List.isPrefixOf_iff_prefix.mp h
    exact this.length_le
  have hpos : 0 < pre.data.length := List.length_pos.mpr hne
  show (s.data.drop pre.data.length).length < s.data.length
  rw [List.length_drop]
  omega

/-- Trimming a prefix that is absent changes nothing. -/
theorem TrimPrefix_absent (s pre : String) (h : HasPrefix s pre = false) :
    TrimPrefix s pre = s := by
  unfold TrimPrefix
  simp [h]

/-- With the prefix on the path, and on the escaped path if it is set,
`StripPrefix` calls the inner handler with both trimmed. -/
theorem StripPrefix_swagger (h : Handler) (w : ResponseWriter) (r : Request)
    (hpre : HasPrefix r.URL.Path "/swagger/" = true)
    (hraw : r.URL.RawPath = "" ∨ HasPrefix r.URL.RawPath "/swagger/" = true) :
    StripPrefix "/swagger/" h w r =
      h w { r with URL := { r.URL with Path := TrimPrefix r.URL.Path "/swagger/",
                                       RawPath := TrimPrefix r.URL.RawPath "/swagger/" } } := by
  have h1 := TrimPrefix_length_lt r.URL.Path "/swagger/" hpre (by decide)
  have h2 : r.URL.RawPath = "" ∨
      (TrimPrefix r.URL.RawPath "/swagger/").data.length < r.URL.RawPath.data.length := by
    rcases hraw with h0 | h0
    · exact Or.inl h0
    · exact Or.inr (TrimPrefix_length_lt _ _ h0 (by decide))
  unfold StripPrefix
  rw [if_neg (by decide)]
  simp only []
  rw [if_pos ⟨h1, h2⟩]

/-- When the escaped path is set and lacks the prefix, `StripPrefix` replies
with its own 404 and the inner handler is not called. -/
theorem StripPrefix_swagger_escaped (h : Handler) (w : ResponseWriter) (r : Request)
    (hraw : r.URL.RawPath ≠ "" ∧ HasPrefix r.URL.RawPath "/swagger/" = false) :
    StripPrefix "/swagger/" h w r = NotFound w r := by
  unfold StripPrefix
  rw [if_neg (by decide)]
  simp only []
  rw [if_neg]
  rintro ⟨_, h2⟩
  rcases h2 with h2 | h2
  · exact hraw.1 h2
  · rw [TrimPrefix_absent _ _ hraw.2] at h2
    exact lt_irrefl _ h2

/-- On the static branch `handler` logs the request, records the call and lets
the static asset handler produce the whole response. -/
theorem serve_static (lib : Library) (W : World) (r : Request)
    (hpre : HasPrefix r.URL.Path "/swagger/" = true)
    (hnot : ¬ (r.URL.Path = "/swagger/doc.json" ∧ r.Method = "GET")) :
    serve lib W r =
      ((W.logged "handler" .Info "Request received"
          [("method", r.Method), ("path", r.URL.Path)]).call .ServeHTTP,
        (StripPrefix "/swagger/" (FileServer lib W.swaggerUIFS)
          newResponseWriter r).response) := by
  have hsw : r.URL.Path ≠ "/swagger" := by
    intro h
    rw [h] at hpre
    exact absurd hpre (by decide)
  simp only [serve, handler, MethodGet]
  rw [if_neg hnot, if_pos (Or.inl hpre), if_neg hsw]
  rfl

/-- C8 (as stated, refuted): a GET request whose path `/swagger/swagger-ui.css`
arrived with the slash escaped (`/swagger%2Fswagger-ui.css`) is not handed to
the file server with the remainder `swagger-ui.css`: the file exists, yet the
reply is the 404 of `StripPrefix`. -/
theorem escaped_prefix_not_delegated :
    ¬ ((serve sampleLibrary sampleWorld
          ⟨"GET", [], ⟨"/swagger/swagger-ui.css", "/swagger%2Fswagger-ui.css", ""⟩⟩).2 =
        (FileServer sampleLibrary sampleWorld.swaggerUIFS newResponseWriter
          ⟨"GET", [], ⟨"swagger-ui.css", "/swagger%2Fswagger-ui.css", ""⟩⟩).response) ∧
    (FileServer sampleLibrary sampleWorld.swaggerUIFS newResponseWriter
      ⟨"GET", [], ⟨"swagger-ui.css", "/swagger%2Fswagger-ui.css", ""⟩⟩).response.status =
        some 200 ∧
    (serve sampleLibrary sampleWorld
      ⟨"GET", [], ⟨"/swagger/swagger-ui.css", "/swagger%2Fswagger-ui.css", ""⟩⟩).2 =
        (NotFound newResponseWriter
          ⟨"GET", [], ⟨"/swagger/swagger-ui.css", "/swagger%2Fswagger-ui.css", ""⟩⟩).response := by
  decide

/-- C8 (amended): for every method and every path that starts with `/swagger/`,
except `GET /swagger/doc.json`, `handler` makes exactly the call
`fsHandler.ServeHTTP` and never takes its own fallback branch.  When the escaped
path is unset or also starts with `/swagger/`, the response is that of the file
server on the request with `/swagger/` removed from the path (remainder
`doc.json` for `/swagger/doc.json`, the empty remainder for `/swagger/`);
otherwise it is the 404 of `StripPrefix`. -/
theorem static_delegation (lib : Library) (W : World) (r : Request)
    (hpre : HasPrefix r.URL.Path "/swagger/" = true)
    (hnot : ¬ (r.URL.Path = "/swagger/doc.json" ∧ r.Method = "GET")) :
    callsOf lib W r = [.ServeHTTP] ∧
    notFoundRecord ∉ logOf lib W r ∧
    ((r.URL.RawPath = "" ∨ HasPrefix r.URL.RawPath "/swagger/" = true) →
      (serve lib W r).2 =
        (FileServer lib W.swaggerUIFS newResponseWriter
          { r with URL := { r.URL with Path := TrimPrefix r.URL.Path "/swagger/",
                                       RawPath := TrimPrefix r.URL.RawPath "/swagger/" } }
          ).response) ∧
    (r.URL.RawPath ≠ "" ∧ HasPrefix r.URL.RawPath "/swagger/" = false →
      (serve lib W r).2 = (NotFound newResponseWriter r).response) ∧
    TrimPrefix "/swagger/doc.json" "/swagger/" = "doc.json" ∧
    TrimPrefix "/swagger/" "/swagger/" = "" := by
  have hs := serve_static lib W r hpre hnot
  refine ⟨?_, ?_, ?_, ?_, by decide, by decide⟩
  · simp only [callsOf]
    rw [hs]
    simp [World.logged, World.call]
  · simp only [logOf]
    rw [hs]
    simp +decide [World.logged, World.call, notFoundRecord]
  · intro hraw
    rw [hs, StripPrefix_swagger _ _ _ hpre hraw]
  · intro hraw
    rw [hs, StripPrefix_swagger_escaped _ _ _ hraw]

/-- Witness for C8 (amended): `POST /swagger/doc.json`. -/
theorem static_delegation_witness :
    callsOf sampleLibrary sampleWorld (request "POST" "/swagger/doc.json") = [.ServeHTTP] ∧
    notFoundRecord ∉ logOf sampleLibrary sampleWorld (request "POST" "/swagger/doc.json") ∧
    (((request "POST" "/swagger/doc.json").URL.RawPath = "" ∨
        HasPrefix (request "POST" "/swagger/doc.json").URL.RawPath "/swagger/" = true) →
      (serve sampleLibrary sampleWorld (request "POST" "/swagger/doc.json")).2 =
        (FileServer sampleLibrary sampleWorld.swaggerUIFS newResponseWriter
          { request "POST" "/swagger/doc.json" with
            URL := { (request "POST" "/swagger/doc.json").URL with
              Path := TrimPrefix (request "POST" "/swagger/doc.json").URL.Path "/swagger/",
              RawPath :=
                TrimPrefix (request "POST" "/swagger/doc.json").URL.RawPath "/swagger/" } }
          ).response) ∧
    ((request "POST" "/swagger/doc.json").URL.RawPath ≠ "" ∧
        HasPrefix (request "POST" "/swagger/doc.json").URL.RawPath "/swagger/" = false →
      (serve sampleLibrary sampleWorld (request "POST" "/swagger/doc.json")).2 =
        (NotFound newResponseWriter (request "POST" "/swagger/doc.json")).response) ∧
    TrimPrefix "/swagger/doc.json" "/swagger/" = "doc.json" ∧
    TrimPrefix "/swagger/" "/swagger/" = "" :=
  static_delegation sampleLibrary sampleWorld (request "POST" "/swagger/doc.json")
    (by decide) (by decide)

/-- The only error of `embed.FS.Open` is `ErrNotExist`. -/
theorem embed_Open_error (f : embed.FS) (name : String) (e : fs.PathError)
    (h : f.Open name = .error e) : e = .ErrNotExist := by
  unfold embed.FS.Open at h
  cases hl : f.lookup name with
  | none =>
    rw [hl] at h
    simp at h
    exact h.symm
  | some n =>
    rw [hl] at h
    simp at h

/-- A name that `embed.FS.Open` resolves is a valid path. -/
theorem embed_Open_valid (f : embed.FS) (name : String) (n : embed.Node)
    (h : f.Open name = .ok n) : fs.ValidPath name = true := by
  unfold embed.FS.Open at h
  cases hv : fs.ValidPath name with
  | true => rfl
  | false =>
    simp [embed.FS.lookup, hv] at h

/-- The elements of a path below the asset directory are valid when the whole
path is. -/
theorem valid_below_dist (a : String) (h : fs.ValidPath ("swagger_ui_dist/" ++ a) = true) :
    (path.splitSlash a.data).all fs.validElement = true := by
  have hne : ("swagger_ui_dist/" ++ a : String) ≠ "." := by
    intro h0
    have := congrArg String.data h0
    simp +decide at this
  have hsplit : path.splitSlash ("swagger_ui_dist/" ++ a : String).data =
      "swagger_ui_dist".data :: path.splitSlash a.data := by
    simp +decide [path.splitSlash]
  simp only [fs.ValidPath, hne, decide_False, Bool.false_or, hsplit, List.all_cons,
    Bool.and_eq_true] at h
  exact h.2

/-- The elements of a valid path other than `.` are valid. -/
theorem valid_elements_of_ValidPath (a : String) (h : fs.ValidPath a = true) (hdot : a ≠ ".") :
    (path.splitSlash a.data).all fs.validElement = true := by
  simpa [fs.ValidPath, hdot] using h

/-- Through the file system built by `init`, a rooted path with valid elements
is looked up below `swagger_ui_dist` in the embedded tree. -/
theorem ioFS_Open_dist (ui : embed.FS) (a : String)
    (h : (path.splitSlash a.data).all fs.validElement = true) :
    (http.FS ⟨ui, "swagger_ui_dist"⟩).Open ("/" ++ a) = ui.Open ("swagger_ui_dist/" ++ a) := by
  have hshape := valid_elements_shape a.data h
  have ha : ("/" ++ a : String) ≠ "/" := by
    intro h0
    have := congrArg String.data h0
    simp at this
    exact hshape.1 this
  have hv : fs.ValidPath a = true := by
    simp [fs.ValidPath, h]
  unfold ioFS.Open
  simp only [if_neg ha, TrimPrefix_append, http.FS, fs.subFS.Open, hv, Join_dist_valid a h]
  cases ho : ui.Open ("swagger_ui_dist/" ++ a) with
  | ok n => simp
  | error e =>
    have := embed_Open_error _ _ _ ho
    subst this
    simp [mapOpenError]

/-- Without conditional fields and for a method other than HEAD, `serveContent`
sends status 200 and the whole content. -/
theorem serveContent_plain (lib : Library) (r : Request) (name : String) (content : Bytes)
    (hc : r.conditional = false) (hm : r.Method ≠ "HEAD") :
    (serveContent lib newResponseWriter r name content).response.status = some 200 ∧
    (serveContent lib newResponseWriter r name content).response.body = content := by
  simp +decide [serveContent, hc, hm, ResponseWriter.WriteHeader, ResponseWriter.Write,
    newResponseWriter, ResponseWriter.response, Header.Has, Header.Get, Header.Set, Header.Del]

/-- The step of `serveFile` for a regular file whose URL has no trailing slash. -/
theorem serveFile_file (lib : Library) (w : ResponseWriter) (r : Request) (root : FileSystem)
    (name fname : String) (content : Bytes)
    (hidx : HasSuffix r.URL.Path "/index.html" = false)
    (ho : root.Open name = .ok (.file fname content))
    (hlast : r.URL.Path.data.getLast? ≠ some '/') :
    serveFile lib w r root name = serveContent lib w r fname content := by
  unfold serveFile
  rw [if_neg (by simp [hidx]), ho]
  simp [embed.Node.IsDir, hlast]

/-- The step of `serveFile` for a name that does not exist. -/
theorem serveFile_missing (lib : Library) (w : ResponseWriter) (r : Request)
    (root : FileSystem) (name : String)
    (hidx : HasSuffix r.URL.Path "/index.html" = false)
    (ho : root.Open name = .error .ErrNotExist) :
    serveFile lib w r root name = Error w "404 page not found" 404 := by
  unfold serveFile
  rw [if_neg (by simp [hidx]), ho]
  simp [toHTTPError]

/-- The file server adds the leading slash that `StripPrefix` removed. -/
theorem FileServer_relative (lib : Library) (root : FileSystem) (w : ResponseWriter)
    (r : Request) (hslash : HasPrefix r.URL.Path "/" = false) :
    FileServer lib root w r =
      serveFile lib w { r with URL := { r.URL with Path := "/" ++ r.URL.Path } } root
        (path.Clean ("/" ++ r.URL.Path)) := by
  simp [FileServer, hslash]

/-- The file server on a stripped path with valid elements that does not end in
`/index.html`: a regular file is served whole, a missing name gives 404. -/
theorem FileServer_valid (lib : Library) (ui : embed.FS) (r : Request)
    (h : (path.splitSlash r.URL.Path.data).all fs.validElement = true)
    (hidx : HasSuffix ("/" ++ r.URL.Path) "/index.html" = false)
    (hc : r.conditional = false) (hm : r.Method ≠ "HEAD") :
    (∀ name data, ui.Open ("swagger_ui_dist/" ++ r.URL.Path) = .ok (.file name data) →
      (FileServer lib (http.FS ⟨ui, "swagger_ui_dist"⟩) newResponseWriter r).response.status =
        some 200 ∧
      (FileServer lib (http.FS ⟨ui, "swagger_ui_dist"⟩) newResponseWriter r).response.body =
        data) ∧
    (ui.Open ("swagger_ui_dist/" ++ r.URL.Path) = .error .ErrNotExist →
      (FileServer lib (http.FS ⟨ui, "swagger_ui_dist"⟩) newResponseWriter r).response =
        (NotFound newResponseWriter r).response) := by
  have hshape := valid_elements_shape _ h
  have hslash : HasPrefix r.URL.Path "/" = false := by
    have h1 := hshape.2.1
    unfold HasPrefix
    cases hd : r.URL.Path.data with
    | nil => rfl
    | cons c cs =>
      rw [hd] at h1
      simp at h1
      have h2 : ¬ '/' = c := fun h0 => h1 h0.symm
      simp +decide [List.isPrefixOf, h2]
  have hlast : ("/" ++ r.URL.Path : String).data.getLast? ≠ some '/' := by
    have h1 := hshape.2.2
    cases hd : r.URL.Path.data with
    | nil => exact absurd hd hshape.1
    | cons c cs =>
      rw [hd] at h1
      simp only [String.data_append, hd]
      show ('/' :: c :: cs).getLast? ≠ some '/'
      rw [List.getLast?_cons_cons]
      exact h1
  rw [FileServer_relative _ _ _ _ hslash, Clean_rooted_valid _ h]
  constructor
  · intro name data ho
    rw [serveFile_file lib _ _ _ _ name data hidx (by rw [ioFS_Open_dist ui _ h, ho]) hlast]
    exact serveContent_plain lib _ name data hc hm
  · intro ho
    rw [serveFile_missing lib _ _ _ _ hidx (by rw [ioFS_Open_dist ui _ h, ho])]
    rfl

/-- A suffix of a string is a suffix of the string with a slash in front. -/
theorem HasSuffix_slash (a suf : String) (h : HasSuffix a suf = true) :
    HasSuffix ("/" ++ a) suf = true := by
  unfold HasSuffix at h ⊢
  rw [List.isPrefixOf_iff_prefix] at h ⊢
  have : ("/" ++ a : String).data.reverse = a.data.reverse ++ ['/'] := by simp
  rw [this]
  exact h.trans (List.prefix_append _ _)

/-- A suffix of a string with a slash in front is a suffix of the string,
unless it is the whole. -/
theorem HasSuffix_of_slash (a : String) (h : HasSuffix ("/" ++ a) "/index.html" = true) :
    HasSuffix a "/index.html" = true ∨ a = "index.html" := by
  unfold HasSuffix at h ⊢
  rw [List.isPrefixOf_iff_prefix] at h ⊢
  have hrev : ("/" ++ a : String).data.reverse = a.data.reverse ++ ['/'] := by simp
  rw [hrev, List.prefix_concat_iff] at h
  rcases h with h | h
  · right
    apply String.ext
    have h2 := congrArg List.reverse h
    simp at h2
    exact h2.symm
  · exact Or.inl h

/-- The file server redirects every path that ends in `/index.html` to `./`,
keeping the query, whether or not the file exists. -/
theorem FileServer_index (lib : Library) (root : FileSystem) (r : Request)
    (h : HasSuffix r.URL.Path "/index.html" = true ∨ r.URL.Path = "index.html") :
    (FileServer lib root newResponseWriter r).response =
      { status := some 301,
        header := [("Location",
          if r.URL.RawQuery ≠ "" then "./" ++ "?" ++ r.URL.RawQuery else "./")],
        body := [] } := by
  have hup : HasSuffix (if ¬ HasPrefix r.URL.Path "/" = true then "/" ++ r.URL.Path
      else r.URL.Path) "/index.html" = true := by
    rcases h with h | h
    · split_ifs
      · exact h
      · exact HasSuffix_slash _ _ h
    · rw [h]
      decide
  unfold FileServer serveFile
  simp only []
  rw [if_pos hup]
  by_cases hq : r.URL.RawQuery = "" <;>
    simp [localRedirect, hq, ResponseWriter.WriteHeader, newResponseWriter,
      ResponseWriter.response, Header.Set, Header.Del]

/-! ## Statelessness -/

/-- No function of `main.go` assigns to `swaggerSpec`, `swaggerUIFiles` or
`swaggerUIFS`: `handler` returns them unchanged, for every writer and request. -/
theorem handler_globals (lib : Library) (W : World) (w : ResponseWriter) (r : Request) :
    (handler lib W w r).1.swaggerSpec = W.swaggerSpec ∧
    (handler lib W w r).1.swaggerUIFiles = W.swaggerUIFiles ∧
    (handler lib W w r).1.swaggerUIFS = W.swaggerUIFS := by
  have hs : ∀ W' : World, (handleSwaggerSpec W' w r).1.swaggerSpec = W'.swaggerSpec ∧
      (handleSwaggerSpec W' w r).1.swaggerUIFiles = W'.swaggerUIFiles ∧
      (handleSwaggerSpec W' w r).1.swaggerUIFS = W'.swaggerUIFS := by
    intro W'
    unfold handleSwaggerSpec
    cases W'.swaggerSpec.ReadFile "docs/swagger.json" with
    | error e => simp [World.logged]
    | ok spec =>
      simp only []
      split <;> simp [World.logged]
  have hh : ∀ W' : World, (handleHelloWorld W' w r).1.swaggerSpec = W'.swaggerSpec ∧
      (handleHelloWorld W' w r).1.swaggerUIFiles = W'.swaggerUIFiles ∧
      (handleHelloWorld W' w r).1.swaggerUIFS = W'.swaggerUIFS := by
    intro W'
    unfold handleHelloWorld
    simp only []
    split <;> simp [World.logged]
  unfold handler
  simp only []
  split_ifs
  · simpa [World.logged, World.call] using hs _
  · simp [World.logged, World.call]
  · simp [World.logged, World.call]
  · simpa [World.logged, World.call] using hh _
  · simp [World.logged, World.call]

/-- Serving any sequence of requests leaves the three package variables as
they were. -/
theorem serveAll_globals (lib : Library) (W : World) (rs : List Request) :
    (serveAll lib W rs).swaggerSpec = W.swaggerSpec ∧
    (serveAll lib W rs).swaggerUIFiles = W.swaggerUIFiles ∧
    (serveAll lib W rs).swaggerUIFS = W.swaggerUIFS := by
  induction rs generalizing W with
  | nil => simp [serveAll]
  | cons r rs ih =>
    have h1 := handler_globals lib W newResponseWriter r
    have h2 := ih (serve lib W r).1
    simp only [serveAll, List.foldl_cons] at h2 ⊢
    simp only [serve] at h2 ⊢
    rw [h2.1, h2.2.1, h2.2.2]
    exact h1

/-- The world that `init` builds. -/
theorem init_ok (spec ui : embed.FS) :
    init spec ui =
      .ok { swaggerSpec := spec, swaggerUIFiles := ui,
            swaggerUIFS := http.FS ⟨ui, "swagger_ui_dist"⟩, log := [], calls := [] } := by
  have hv : fs.ValidPath "swagger_ui_dist" = true := by decide
  simp [init, fs.Sub, hv]

/-- The response of `handleSwaggerSpec` depends on the embedded spec only. -/
theorem handleSwaggerSpec_congr (W1 W2 : World) (w : ResponseWriter) (r1 r2 : Request)
    (hs : W1.swaggerSpec = W2.swaggerSpec) :
    (handleSwaggerSpec W1 w r1).2 = (handleSwaggerSpec W2 w r2).2 := by
  unfold handleSwaggerSpec
  rw [hs]
  cases W2.swaggerSpec.ReadFile "docs/swagger.json" with
  | error e => rfl
  | ok spec =>
    simp only []
    split <;> rfl

/-- The response of `handleHelloWorld` depends on nothing but the writer. -/
theorem handleHelloWorld_congr (W1 W2 : World) (w : ResponseWriter) (r1 r2 : Request) :
    (handleHelloWorld W1 w r1).2 = (handleHelloWorld W2 w r2).2 := by
  unfold handleHelloWorld
  simp only []
  split <;> rfl

/-- The reply of `serveContent` to unconditional requests depends on the method only. -/
theorem serveContent_congr (lib : Library) (w : ResponseWriter) (r1 r2 : Request)
    (hm : r1.Method = r2.Method) (hc1 : r1.conditional = false) (hc2 : r2.conditional = false)
    (name : String) (content : Bytes) :
    serveContent lib w r1 name content = serveContent lib w r2 name content := by
  simp [serveContent, hc1, hc2, hm]

/-- The listing of `dirList` for unconditional requests does not depend on the request. -/
theorem dirList_congr (lib : Library) (w : ResponseWriter) (r1 r2 : Request)
    (hc1 : r1.conditional = false) (hc2 : r2.conditional = false)
    (root : FileSystem) (name : String) :
    dirList lib w r1 root name = dirList lib w r2 root name := by
  simp [dirList, hc1, hc2]

/-- The reply of `serveFile` to unconditional requests depends on method and URL only. -/
theorem serveFile_congr (lib : Library) (w : ResponseWriter) (r1 r2 : Request)
    (hm : r1.Method = r2.Method) (hu : r1.URL = r2.URL)
    (hc1 : r1.conditional = false) (hc2 : r2.conditional = false)
    (root : FileSystem) (name : String) :
    serveFile lib w r1 root name = serveFile lib w r2 root name := by
  unfold serveFile
  simp only [localRedirect, hu, serveContent_congr lib w r1 r2 hm hc1 hc2,
    dirList_congr lib w r1 r2 hc1 hc2]

/-- The reply of the file server to unconditional requests depends on method and URL only. -/
theorem FileServer_congr (lib : Library) (root : FileSystem) (w : ResponseWriter)
    (r1 r2 : Request) (hm : r1.Method = r2.Method) (hu : r1.URL = r2.URL)
    (hc1 : r1.conditional = false) (hc2 : r2.conditional = false) :
    FileServer lib root w r1 = FileServer lib root w r2 := by
  unfold FileServer
  simp only [hu]
  apply serveFile_congr
  · exact hm
  · rfl
  · exact hc1
  · exact hc2

/-- The handler that `StripPrefix` builds for the prefix `/swagger/`. -/
theorem StripPrefix_swagger_eq (h : Handler) (w : ResponseWriter) (r : Request) :
    StripPrefix "/swagger/" h w r =
      if (TrimPrefix r.URL.Path "/swagger/").data.length < r.URL.Path.data.length ∧
          (r.URL.RawPath = "" ∨
            (TrimPrefix r.URL.RawPath "/swagger/").data.length < r.URL.RawPath.data.length) then
        h w { r with URL := { r.URL with Path := TrimPrefix r.URL.Path "/swagger/",
                                         RawPath := TrimPrefix r.URL.RawPath "/swagger/" } }
      else NotFound w r := by
  unfold StripPrefix
  rw [if_neg (by decide)]

/-- The response of `handler` to unconditional requests depends on the method,
the URL, the embedded spec and the asset file system only. -/
theorem handler_congr (lib : Library) (W1 W2 : World) (w : ResponseWriter) (r1 r2 : Request)
    (hs : W1.swaggerSpec = W2.swaggerSpec) (hf : W1.swaggerUIFS = W2.swaggerUIFS)
    (hm : r1.Method = r2.Method) (hu : r1.URL = r2.URL)
    (hc1 : r1.conditional = false) (hc2 : r2.conditional = false) :
    (handler lib W1 w r1).2 = (handler lib W2 w r2).2 := by
  unfold handler
  simp only [hm, hu, hf]
  split_ifs
  · exact handleSwaggerSpec_congr _ _ w r1 r2 hs
  · simp [Redirect, hm, hu]
  · rw [StripPrefix_swagger_eq, StripPrefix_swagger_eq, hu]
    split_ifs
    · simp only [World.logged, hf]
      apply FileServer_congr
      · exact hm
      · rfl
      · exact hc1
      · exact hc2
    · rfl
  · exact handleHelloWorld_congr _ _ w r1 r2
  · rfl

/-- C9 (as stated, refuted): two GET requests with the same path
`/swagger/index.html`, one of them with the query `lang=en`, get different
`Location` fields; and two GET requests with the same decoded path
`/swagger/swagger-ui.css`, one of which arrived with the slash escaped, get
status 200 and status 404. -/
theorem same_method_path_differ :
    (request "GET" "/swagger/index.html").Method = "GET" ∧
    (request "GET" "/swagger/index.html").URL.Path = "/swagger/index.html" ∧
    (serve sampleLibrary sampleWorld (request "GET" "/swagger/index.html")).2 ≠
      (serve sampleLibrary sampleWorld
        ⟨"GET", [], ⟨"/swagger/index.html", "", "lang=en"⟩⟩).2 ∧
    (serve sampleLibrary sampleWorld (request "GET" "/swagger/swagger-ui.css")).2.status =
      some 200 ∧
    (serve sampleLibrary sampleWorld
      ⟨"GET", [], ⟨"/swagger/swagger-ui.css", "/swagger%2Fswagger-ui.css", ""⟩⟩).2.status =
        some 404 := by
  decide

/-- C9 (amended): `handler` is deterministic and stateless.  For fixed embedded
blobs, two requests with the same method and the same URL (path, escaped path
and query) that carry no conditional or range header fields get identical
responses, whatever requests were served in between; and no handler writes to
`swaggerSpec`, `swaggerUIFiles` or `swaggerUIFS`. -/
theorem stateless_handler (lib : Library) (W : World) (rs : List Request) (r1 r2 : Request)
    (hm : r1.Method = r2.Method) (hu : r1.URL = r2.URL)
    (hc1 : r1.conditional = false) (hc2 : r2.conditional = false) :
    (serve lib (serveAll lib W rs) r1).2 = (serve lib W r2).2 ∧
    ((serveAll lib W rs).swaggerSpec = W.swaggerSpec ∧
      (serveAll lib W rs).swaggerUIFiles = W.swaggerUIFiles ∧
      (serveAll lib W rs).swaggerUIFS = W.swaggerUIFS) ∧
    (∀ (w : ResponseWriter) (r : Request),
      (handler lib W w r).1.swaggerSpec = W.swaggerSpec ∧
      (handler lib W w r).1.swaggerUIFiles = W.swaggerUIFiles ∧
      (handler lib W w r).1.swaggerUIFS = W.swaggerUIFS) := by
  have hg := serveAll_globals lib W rs
  refine ⟨?_, hg, fun w r => handler_globals lib W w r⟩
  simp only [serve]
  rw [handler_congr lib (serveAll lib W rs) W newResponseWriter r1 r2 hg.1 hg.2.2 hm hu hc1 hc2]

/-- Witness for C9 (amended): `GET /swagger/swagger-ui.css` after three other
requests, with and without an `Accept` field. -/
theorem stateless_handler_witness :
    (serve sampleLibrary
        (serveAll sampleLibrary sampleWorld
          [request "GET" "/hello", request "POST" "/x", request "GET" "/swagger/doc.json"])
        ⟨"GET", [("Accept", "text/css")], ⟨"/swagger/swagger-ui.css", "", ""⟩⟩).2 =
      (serve sampleLibrary sampleWorld (request "GET" "/swagger/swagger-ui.css")).2 :=
  (stateless_handler sampleLibrary sampleWorld
    [request "GET" "/hello", request "POST" "/x", request "GET" "/swagger/doc.json"]
    ⟨"GET", [("Accept", "text/css")], ⟨"/swagger/swagger-ui.css", "", ""⟩⟩
    (request "GET" "/swagger/swagger-ui.css") (by rfl) (by rfl) (by decide) (by decide)).1

/-! ## Static assets -/

/-- C7 (as stated, refuted): `index.html` is a file of the embedded asset tree,
yet `GET /swagger/index.html` is answered with status 301 and `Location: ./`,
not with status 200 and the bytes of the file. -/
theorem index_html_redirected :
    sampleUI.Open "swagger_ui_dist/index.html" =
      .ok (.file "index.html" (bytes "<html></html>")) ∧
    init sampleSpec sampleUI = .ok sampleWorld ∧
    (serve sampleLibrary sampleWorld (request "GET" "/swagger/index.html")).2.status =
      some 301 ∧
    Header.Get (serve sampleLibrary sampleWorld (request "GET" "/swagger/index.html")).2.header
      "Location" = "./" ∧
    ¬ ((serve sampleLibrary sampleWorld (request "GET" "/swagger/index.html")).2.status =
        some 200 ∧
       (serve sampleLibrary sampleWorld (request "GET" "/swagger/index.html")).2.body =
        bytes "<html></html>") := by
  refine ⟨by rfl, by rfl, by decide, by decide, by decide⟩

/-- C7 (amended): at any time after `init`, take a GET request for
`"/swagger/" + a` with `a ≠ "doc.json"` whose escaped path is unset or also
starts with `/swagger/` and that carries no conditional or range header fields.
If the path does not end in `/index.html` and `a` is the path of a regular file
of the embedded tree below `swagger_ui_dist`, the response has status 200 and
exactly the bytes of that file; if the path does not end in `/index.html` and
`a` is a well-formed relative path that names nothing there, the response is
the 404 of the file server; if the path ends in `/index.html`, the response is
a 301 redirect to `./` (with the query, if any), whether or not the file
exists. -/
theorem static_asset_response (lib : Library) (spec ui : embed.FS) (W0 : World)
    (rs : List Request) (r : Request) (a : String)
    (hW : init spec ui = .ok W0)
    (hm : r.Method = "GET") (hp : r.URL.Path = "/swagger/" ++ a) (ha : a ≠ "doc.json")
    (hraw : r.URL.RawPath = "" ∨ HasPrefix r.URL.RawPath "/swagger/" = true)
    (hc : r.conditional = false) :
    (HasSuffix ("/" ++ a) "/index.html" = false →
      ∀ name data, ui.Open ("swagger_ui_dist/" ++ a) = .ok (.file name data) →
        (serve lib (serveAll lib W0 rs) r).2.status = some 200 ∧
        (serve lib (serveAll lib W0 rs) r).2.body = data) ∧
    (HasSuffix ("/" ++ a) "/index.html" = false →
      fs.ValidPath a = true → a ≠ "." →
      ui.Open ("swagger_ui_dist/" ++ a) = .error .ErrNotExist →
        (serve lib (serveAll lib W0 rs) r).2.status = some 404 ∧
        (serve lib (serveAll lib W0 rs) r).2.body = bytes "404 page not found\n" ∧
        callsOf lib (serveAll lib W0 rs) r = [.ServeHTTP]) ∧
    (HasSuffix ("/" ++ a) "/index.html" = true →
      (serve lib (serveAll lib W0 rs) r).2 =
        { status := some 301,
          header := [("Location",
            if r.URL.RawQuery ≠ "" then "./" ++ "?" ++ r.URL.RawQuery else "./")],
          body := [] }) := by
  have hfs : (serveAll lib W0 rs).swaggerUIFS = http.FS ⟨ui, "swagger_ui_dist"⟩ := by
    rw [(serveAll_globals lib W0 rs).2.2]
    rw [init_ok] at hW
    cases hW
    rfl
  have hpre : HasPrefix r.URL.Path "/swagger/" = true := by
    rw [hp]
    exact HasPrefix_append _ _
  have hnot : ¬ (r.URL.Path = "/swagger/doc.json" ∧ r.Method = "GET") := by
    rintro ⟨h, _⟩
    rw [hp] at h
    have h2 := congrArg (fun s => TrimPrefix s "/swagger/") h
    simp only [TrimPrefix_append] at h2
    exact ha (h2.trans (by decide))
  have hcalls : callsOf lib (serveAll lib W0 rs) r = [.ServeHTTP] := by
    simp only [callsOf]
    rw [serve_static lib _ r hpre hnot]
    simp [World.logged, World.call]
  have hresp : (serve lib (serveAll lib W0 rs) r).2 = _ :=
    (congrArg Prod.snd (serve_static lib (serveAll lib W0 rs) r hpre hnot)).trans
      (congrArg ResponseWriter.response (StripPrefix_swagger _ _ _ hpre hraw))
  rw [hfs] at hresp
  have hr2 : ({ r with URL := { r.URL with Path := TrimPrefix r.URL.Path "/swagger/",
                                           RawPath := TrimPrefix r.URL.RawPath "/swagger/" } } :
      Request).URL.Path = a := by
    show TrimPrefix r.URL.Path "/swagger/" = a
    rw [hp, TrimPrefix_append]
  have hkey : ∀ (_ : (path.splitSlash a.data).all fs.validElement = true)
      (_ : HasSuffix ("/" ++ a) "/index.html" = false), _ :=
    fun hv hidx => FileServer_valid lib ui
      { r with URL := { r.URL with Path := TrimPrefix r.URL.Path "/swagger/",
                                   RawPath := TrimPrefix r.URL.RawPath "/swagger/" } }
      (by rw [hr2]; exact hv) (by rw [hr2]; exact hidx) hc
      (by
        show r.Method ≠ "HEAD"
        rw [hm]
        decide)
  rw [hr2] at hkey
  refine ⟨?_, ?_, ?_⟩
  · intro hidx name data ho
    have hv := valid_below_dist a (embed_Open_valid _ _ _ ho)
    rw [hresp]
    exact (hkey hv hidx).1 name data ho
  · intro hidx hvalid hdot ho
    have hv := valid_elements_of_ValidPath a hvalid hdot
    rw [hresp, (hkey hv hidx).2 ho]
    exact ⟨rfl, rfl, hcalls⟩
  · intro hidx
    have hcase : HasSuffix a "/index.html" = true ∨ a = "index.html" :=
      HasSuffix_of_slash a hidx
    rw [hresp]
    have := FileServer_index lib (http.FS ⟨ui, "swagger_ui_dist"⟩)
      { r with URL := { r.URL with Path := TrimPrefix r.URL.Path "/swagger/",
                                   RawPath := TrimPrefix r.URL.RawPath "/swagger/" } }
      (by rw [hr2]; exact hcase)
    exact this

/-- Witness for C7 (amended), first part: after two other requests,
`GET /swagger/img/logo.svg` returns the embedded bytes of that file. -/
theorem static_asset_response_witness :
    (serve sampleLibrary
        (serveAll sampleLibrary sampleWorld [request "GET" "/hello", request "GET" "/swagger"])
        (request "GET" "/swagger/img/logo.svg")).2.status = some 200 ∧
    (serve sampleLibrary
        (serveAll sampleLibrary sampleWorld [request "GET" "/hello", request "GET" "/swagger"])
        (request "GET" "/swagger/img/logo.svg")).2.body = bytes "<svg/>" ∧
    (serve sampleLibrary
        (serveAll sampleLibrary sampleWorld [request "GET" "/hello", request "GET" "/swagger"])
        (request "GET" "/swagger/missing.js")).2.status = some 404 :=
  ⟨((static_asset_response sampleLibrary sampleSpec sampleUI sampleWorld
      [request "GET" "/hello", request "GET" "/swagger"]
      (request "GET" "/swagger/img/logo.svg") "img/logo.svg"
      (by rfl) (by rfl) (by rfl) (by decide) (Or.inl (by rfl)) (by decide)).1
      (by decide) "logo.svg" (bytes "<svg/>") (by rfl)).1,
   ((static_asset_response sampleLibrary sampleSpec sampleUI sampleWorld
      [request "GET" "/hello", request "GET" "/swagger"]
      (request "GET" "/swagger/img/logo.svg") "img/logo.svg"
      (by rfl) (by rfl) (by rfl) (by decide) (Or.inl (by rfl)) (by decide)).1
      (by decide) "logo.svg" (bytes "<svg/>") (by rfl)).2,
   ((static_asset_response sampleLibrary sampleSpec sampleUI sampleWorld
      [request "GET" "/hello", request "GET" "/swagger"]
      (request "GET" "/swagger/missing.js") "missing.js"
      (by rfl) (by rfl) (by rfl) (by decide) (Or.inl (by rfl)) (by decide)).2.1
      (by decide) (by decide) (by decide) (by rfl)).1⟩

end WasmTemplate
